import Mathlib

/-!
Verification of the ITE Curbside Management Tool scripts.

Each Python tool script is shallowly embedded as Lean definitions over exact
rational arithmetic (every Python float value is a rational, so `ℚ` models the
numeric domain faithfully), with pandas/arcpy tabular operations modelled as
explicit list transformations.  Theorems then settle the frozen claims about
the scripts.
-/

/-! ## curbsidelib: angle helpers (`curbsidelib.py`, lines 538-551) -/

/-- Python `%` on numbers with a positive modulus: `x % m = x - m * ⌊x / m⌋`.
This is exactly the semantics of the float/int modulo used in
`find_smallest_angle` (`(angle1 - angle2) % 180`). -/
def pymod (x m : ℚ) : ℚ := x - m * ⌊x / m⌋

/-- `curbsidelib.find_smallest_angle`: given two angles/azimuths in degrees,
`diff = (angle1 - angle2) % 180; diff = min(diff, 180 - diff); return diff`. -/
def find_smallest_angle (angle1 angle2 : ℚ) : ℚ :=
  let diff := pymod (angle1 - angle2) 180
  min diff (180 - diff)

lemma pymod_eq_fract (x : ℚ) : pymod x 180 = 180 * Int.fract (x / 180) := by
  unfold pymod Int.fract
  field_simp

lemma pymod_nonneg (x : ℚ) : 0 ≤ pymod x 180 := by
  rw [pymod_eq_fract]
  have := Int.fract_nonneg (x / 180)
  nlinarith

lemma pymod_lt (x : ℚ) : pymod x 180 < 180 := by
  rw [pymod_eq_fract]
  have := Int.fract_lt_one (x / 180)
  nlinarith

lemma pymod_neg_eq (x : ℚ) (h : pymod x 180 ≠ 0) :
    pymod (-x) 180 = 180 - pymod x 180 := by
  rw [pymod_eq_fract x] at h ⊢
  have hx : Int.fract (x / 180) ≠ 0 := by
    intro h0; apply h; rw [h0]; ring
  rw [pymod_eq_fract (-x)]
  have hneg : (-x) / 180 = -(x / 180) := by ring
  rw [hneg, Int.fract_neg hx]
  ring

lemma pymod_neg_zero (x : ℚ) (h : pymod x 180 = 0) : pymod (-x) 180 = 0 := by
  rw [pymod_eq_fract x] at h
  have hx : Int.fract (x / 180) = 0 := by nlinarith
  rw [pymod_eq_fract (-x)]
  have hneg : (-x) / 180 = -(x / 180) := by ring
  rw [hneg, Int.fract_neg_eq_zero.mpr hx]
  ring

/-- **C10.** `find_smallest_angle` always returns a value in the closed
interval `[0, 90]` degrees, and it is symmetric in its two arguments. -/
theorem find_smallest_angle_range_and_symm (a b : ℚ) :
    0 ≤ find_smallest_angle a b ∧ find_smallest_angle a b ≤ 90 ∧
      find_smallest_angle a b = find_smallest_angle b a := by
  have hnn := pymod_nonneg (a - b)
  have hlt := pymod_lt (a - b)
  refine ⟨?_, ?_, ?_⟩
  · unfold find_smallest_angle
    simp only [le_min_iff]
    constructor
    · exact hnn
    · linarith
  · unfold find_smallest_angle
    rcases le_total (pymod (a - b) 180) 90 with h | h
    · exact le_trans (min_le_left _ _) h
    · exact le_trans (min_le_right _ _) (by linarith)
  · unfold find_smallest_angle
    have hba : b - a = -(a - b) := by ring
    by_cases h0 : pymod (a - b) 180 = 0
    · rw [hba, pymod_neg_zero _ h0, h0]
    · rw [hba, pymod_neg_eq _ h0]
      simp only [sub_sub_cancel]
      exact min_comm _ _

/-! ## T0_Get_SharedStreets.py -/

/-- A vertex of a SharedStreets polyline (`arcpy.Point`). -/
structure SSPoint where
  x : ℚ
  y : ℚ
deriving DecidableEq

/-- One element of the `features` array of a SharedStreets API response:
`geometry.coordinates` and `properties.id`. -/
structure SSFeature where
  ssid : String
  coords : List (ℚ × ℚ)
deriving DecidableEq

/-- The inner loop of `createFC`: `polylineArray` starts empty and a point is
appended for every coordinate pair, in array order
(`T0_Get_SharedStreets.py`, lines 86-89). -/
def buildPolylineArray (stringCoords : List (ℚ × ℚ)) : List SSPoint :=
  stringCoords.foldl (fun arr c => arr ++ [⟨c.1, c.2⟩]) []

/-- `createFC`: loops over the JSON features; for each one it builds the
polyline from the coordinates and inserts the row `(properties.id, polyline)`
through the insert cursor (`T0_Get_SharedStreets.py`, lines 75-96).  The
returned list is the content of the output feature class in insertion order. -/
def createFC (features : List SSFeature) : List (String × List SSPoint) :=
  features.foldl (fun inserted f => inserted ++ [(f.ssid, buildPolylineArray f.coords)]) []

lemma foldl_append_singleton {α β : Type} (g : α → β) (l : List α) (init : List β) :
    l.foldl (fun acc x => acc ++ [g x]) init = init ++ l.map g := by
  induction l generalizing init with
  | nil => simp
  | cons a as ih => simp [ih]

/-- **C7.** `createFC` inserts exactly one polyline per element of the
response's `features` array, in array order; each inserted row's `ssID` is the
element's `properties.id` and the polyline's vertices are the element's
geometry coordinates in order. -/
theorem createFC_one_row_per_feature (features : List SSFeature) :
    createFC features =
      features.map (fun f => (f.ssid, f.coords.map (fun c => SSPoint.mk c.1 c.2))) := by
  have hpoly : ∀ cs : List (ℚ × ℚ),
      buildPolylineArray cs = cs.map (fun c => SSPoint.mk c.1 c.2) := by
    intro cs
    unfold buildPolylineArray
    simpa using foldl_append_singleton (fun c : ℚ × ℚ => SSPoint.mk c.1 c.2) cs []
  calc createFC features
      = features.map (fun f => (f.ssid, buildPolylineArray f.coords)) := by
        unfold createFC
        simpa using
          foldl_append_singleton
            (fun f : SSFeature => (f.ssid, buildPolylineArray f.coords)) features []
    _ = features.map (fun f => (f.ssid, f.coords.map (fun c => SSPoint.mk c.1 c.2))) := by
        simp [hpoly]

/-- The extent of a polygon row, as sent in the `bounds` URL parameter. -/
structure SSExtent where
  xmin : ℚ
  ymin : ℚ
  xmax : ℚ
  ymax : ℚ
deriving DecidableEq

/-- The remote SharedStreets API, abstracted: for a requested extent it either
answers with the parsed `features` array or the request raises. -/
def SSFetch : Type := SSExtent → Except String (List SSFeature)

/-- `sendRequest`: builds the URL for one extent, issues a single blocking
`urlopen` call, reads and parses the response and hands the features to
`createFC` (`T0_Get_SharedStreets.py`, lines 59-72).  The first component
records the requests issued (exactly one); there is no try/except, so a raised
exception propagates unchanged. -/
def sendRequest (fetch : SSFetch) (poly : SSExtent) :
    List SSExtent × Except String (List (String × List SSPoint)) :=
  ([poly], (fetch poly).map createFC)

/-- `getPolygon`'s request plan: the search cursor visits every row of the
input polygon feature class; in the projected case the whole feature class is
reprojected and an inner cursor sends one request per reprojected row, in the
geographic case one request is sent for the current row
(`T0_Get_SharedStreets.py`, lines 44-56).  Reprojection is a vendor operation,
so the reprojected rows' extents are a parameter. -/
def requestPlan (projected : Bool) (rows projectedRows : List SSExtent) : List SSExtent :=
  rows.foldl (fun acc r => acc ++ (if projected then projectedRows else [r])) []

/-- Sequential execution of the planned requests: each planned extent is
requested exactly once, in order, and the first raised exception aborts the
run (no retry). -/
def runRequests (fetch : SSFetch) : List SSExtent → List SSExtent × Except String Unit
  | [] => ([], .ok ())
  | e :: es =>
    match (sendRequest fetch e).2 with
    | .error msg => ([e], .error msg)
    | .ok _ =>
      let rest := runRequests fetch es
      (e :: rest.1, rest.2)

/-- `getPolygon`: requests issued and final outcome of one tool run. -/
def getPolygon (fetch : SSFetch) (projected : Bool)
    (rows projectedRows : List SSExtent) : List SSExtent × Except String Unit :=
  runRequests fetch (requestPlan projected rows projectedRows)

/-- **C3, counterexample.** With a geographic-coordinate input polygon feature
class holding two rows (and an API that answers every request), one tool run
issues two HTTP requests, not exactly one. -/
theorem getPolygon_two_rows_two_requests :
    ((getPolygon (fun _ => .ok []) false
        [⟨0, 0, 1, 1⟩, ⟨2, 2, 3, 3⟩] []).1).length = 2 ∧ (2 : ℕ) ≠ 1 := by
  constructor
  · rfl
  · decide

lemma requestPlan_geographic (rows projectedRows : List SSExtent) :
    requestPlan false rows projectedRows = rows := by
  unfold requestPlan
  suffices h : ∀ init : List SSExtent,
      (rows.foldl (fun acc r => acc ++ (if false then projectedRows else [r])) init) =
        init ++ rows by
    simpa using h []
  induction rows with
  | nil => intro init; simp
  | cons r rs ih =>
    intro init
    simp only [List.foldl_cons, ih]
    simp

lemma requestPlan_projected_length (rows projectedRows : List SSExtent) :
    (requestPlan true rows projectedRows).length =
      rows.length * projectedRows.length := by
  unfold requestPlan
  suffices h : ∀ init : List SSExtent,
      (rows.foldl (fun acc _ => acc ++ projectedRows) init).length =
        init.length + rows.length * projectedRows.length by
    simpa using h []
  induction rows with
  | nil => intro init; simp
  | cons r rs ih =>
    intro init
    simp only [List.foldl_cons, ih, List.length_append, List.length_cons]
    ring

lemma runRequests_all_ok (fetch : SSFetch)
    (plan : List SSExtent) (hok : ∀ e ∈ plan, ∃ v, fetch e = .ok v) :
    runRequests fetch plan = (plan, .ok ()) := by
  induction plan with
  | nil => rfl
  | cons e es ih =>
    obtain ⟨v, hv⟩ := hok e (by simp)
    unfold runRequests sendRequest
    simp only [hv, Except.map]
    rw [ih (fun e' he' => hok e' (by simp [he']))]

/-- **C3, amended.** One blocking HTTP request is issued per cursor-row
iteration, not per tool run: in the geographic case the requests are exactly
the input rows' extents in order, and in the projected case their number is
(number of input rows) × (number of reprojected rows).  Every `sendRequest`
issues exactly one request, and a failed request is never retried: the first
exception aborts the run and propagates. -/
theorem getPolygon_one_request_per_iteration (fetch : SSFetch)
    (rows projectedRows : List SSExtent)
    (hok : ∀ e, ∃ v, fetch e = .ok v) :
    (getPolygon fetch false rows projectedRows).1 = rows ∧
    (getPolygon fetch true rows projectedRows).1.length =
      rows.length * projectedRows.length ∧
    (∀ e, (sendRequest fetch e).1 = [e]) ∧
    (∀ f : SSFetch, ∀ e msg rest, f e = .error msg →
      runRequests f (e :: rest) = ([e], .error msg)) := by
  refine ⟨?_, ?_, fun e => rfl, ?_⟩
  · unfold getPolygon
    rw [runRequests_all_ok fetch _ (fun e _ => hok e), requestPlan_geographic]
  · unfold getPolygon
    rw [runRequests_all_ok fetch _ (fun e _ => hok e)]
    exact requestPlan_projected_length rows projectedRows
  · intro f e msg rest hfail
    unfold runRequests sendRequest
    simp [hfail, Except.map]

/-- **C3, amended, witness.** Concrete evaluation: an always-answering API,
two geographic rows, three reprojected rows. -/
theorem getPolygon_one_request_per_iteration_witness :
    (getPolygon (fun _ => .ok []) false
        [⟨0, 0, 1, 1⟩, ⟨2, 2, 3, 3⟩] [⟨0, 0, 1, 1⟩, ⟨1, 1, 2, 2⟩, ⟨2, 2, 3, 3⟩]).1 =
        [⟨0, 0, 1, 1⟩, ⟨2, 2, 3, 3⟩] ∧
    (getPolygon (fun _ => .ok []) true
        [⟨0, 0, 1, 1⟩, ⟨2, 2, 3, 3⟩] [⟨0, 0, 1, 1⟩, ⟨1, 1, 2, 2⟩, ⟨2, 2, 3, 3⟩]).1.length = 2 * 3 ∧
    (∀ e, (sendRequest (fun _ => .ok []) e).1 = [e]) ∧
    (∀ f : SSFetch, ∀ e msg rest, f e = .error msg →
      runRequests f (e :: rest) = ([e], .error msg)) :=
  getPolygon_one_request_per_iteration (fun _ => .ok [])
    [⟨0, 0, 1, 1⟩, ⟨2, 2, 3, 3⟩] [⟨0, 0, 1, 1⟩, ⟨1, 1, 2, 2⟩, ⟨2, 2, 3, 3⟩]
    (fun _ => ⟨[], rfl⟩)

/-! ## T4_Recommend_Curbside_Treatments.py: sieve scoring

One row of the intermediate table (a segment/treatment pair after the two
merges in `create_intermediate_table`), restricted to the columns the five
sieve functions read.  String-valued cells are kept as strings and parsed
exactly as the Python code parses them; numeric cells are rationals. -/
structure TreatmentRow where
  modePriorityApplicable : String
  modalPriority : ℕ → String
  appropriatePriorityRankRange : String
  appropriateLandUse : String
  landUse : String
  placeTypes : String
  placeType : String
  totalROWNecessary : String
  availableROW : ℚ
  successMetric : String → Option ℚ

/-- Python `str.split(sep)` with a one-character separator, over the string's
character list: `''.split(sep) == ['']`, and separators at the ends produce
empty pieces. -/
def pySplit (sep : Char) : List Char → List (List Char)
  | [] => [[]]
  | c :: rest =>
    if c = sep then [] :: pySplit sep rest
    else
      match pySplit sep rest with
      | [] => [[c]]
      | g :: gs => (c :: g) :: gs

/-- Python `str.strip()`: remove whitespace from both ends. -/
def pyStrip (cs : List Char) : List Char :=
  ((cs.dropWhile Char.isWhitespace).reverse.dropWhile Char.isWhitespace).reverse

/-- Python `int(s)` on the strings these tools feed it: a nonempty all-digit
character list parses to the corresponding natural number; anything else
(in particular `int('')`) raises, modelled as `none`. -/
def pyIntOfDigits? (cs : List Char) : Option ℕ :=
  if cs ≠ [] ∧ cs.all Char.isDigit then
    some (cs.foldl (fun n c => 10 * n + (c.toNat - '0'.toNat)) 0)
  else none

/-- `"".join(filter(str.isdigit, s))`: the digit characters of `s`, in order. -/
def digitsOf (s : String) : List Char := s.data.filter Char.isDigit

/-- The `rank` computed by `modal_priority_sieve`'s loop
(`T4_Recommend_Curbside_Treatments.py`, lines 54-57): it starts at `-1` and
the loop over `i in range(1, 8)` overwrites it with every `i` whose
`Modal_Priority_i` column equals the applicable mode, so the largest matching
index wins. -/
def modalRank (row : TreatmentRow) : ℤ :=
  ((List.range 7).map (· + 1)).foldl
    (fun r i => if row.modalPriority i = row.modePriorityApplicable then (i : ℤ) else r) (-1)

/-- `modal_priority_sieve` (lines 42-62): the rank range string is split on
`"-"`; `int()` of the first piece is compared first and Python's `and`
short-circuits, so the second piece is only parsed when `rank >= lo`.
`none` models a raised exception (a missing piece or a failing `int()`). -/
def modal_priority_sieve (row : TreatmentRow) : Option ℚ :=
  match pySplit '-' row.appropriatePriorityRankRange.data with
  | [] => none
  | p0 :: rest =>
    match pyIntOfDigits? p0 with
    | none => none
    | some lo =>
      if modalRank row < (lo : ℤ) then some 0
      else
        match rest with
        | [] => none
        | p1 :: _ =>
          match pyIntOfDigits? p1 with
          | none => none
          | some hi => some (if modalRank row ≤ (hi : ℤ) then 1 else 0)

/-- `land_use_sieve` (lines 64-71): membership of `Land_Use` in the
comma-separated, stripped `Appropriate Land Use` list. -/
def land_use_sieve (row : TreatmentRow) : ℚ :=
  let land_uses := (pySplit ',' row.appropriateLandUse.data).map pyStrip
  if row.landUse.data ∈ land_uses then 1 else 0

/-- `place_type_sieve` (lines 73-83): compares the integers formed by the
digit characters of `Place Types` and `Place_Type`; `int('')` raises. -/
def place_type_sieve (row : TreatmentRow) : Option ℚ :=
  match pyIntOfDigits? (digitsOf row.placeTypes), pyIntOfDigits? (digitsOf row.placeType) with
  | some place_types, some data_place_type =>
    some (if data_place_type ≤ place_types then 1 else 0)
  | _, _ => none

/-- `row_available_sieve` (lines 85-91): the necessary ROW in feet is parsed
from the digit characters and converted to meters with the fixed factor
`0.3048 = 3048/10000`. -/
def row_available_sieve (row : TreatmentRow) : Option ℚ :=
  match pyIntOfDigits? (digitsOf row.totalROWNecessary) with
  | none => none
  | some n => some (if row.availableROW ≥ (n : ℚ) * (3048 / 10000) then 1 else 0)

/-- `success_metric_sieve` (lines 93-102): looks up the column
`"<mode>_Success_Metric"`; the bare try/except turns a missing column into
`0`; returns `1 - success_value`. -/
def success_metric_sieve (row : TreatmentRow) : ℚ :=
  let success_value :=
    (row.successMetric (row.modePriorityApplicable ++ "_Success_Metric")).getD 0
  1 - success_value

/-- The five sieve values of one intermediate-table row, in the order of the
global `sieves` dict (lines 104-111); `none` when some sieve raises (in which
case `DataFrame.apply` propagates the exception and no table is produced). -/
def sieveValues (row : TreatmentRow) : Option (List ℚ) :=
  (modal_priority_sieve row).bind fun m =>
    (place_type_sieve row).bind fun p =>
      (row_available_sieve row).bind fun r =>
        some [m, land_use_sieve row, p, r, success_metric_sieve row]

/-- `Sum_Sieve` (line 179): the row-wise sum of the five sieve columns. -/
def sumSieve (row : TreatmentRow) : Option ℚ := (sieveValues row).map List.sum

/-- `Treatment_Applied` (line 180):
`np.where(len(sieves) == Sum_Sieve, 1, 0)` with `len(sieves) = 5`. -/
def treatmentApplied (row : TreatmentRow) : Option ℚ :=
  (sumSieve row).map (fun s => if (5 : ℚ) = s then 1 else 0)

lemma modal_priority_sieve_binary (row : TreatmentRow) (v : ℚ)
    (h : modal_priority_sieve row = some v) : v = 0 ∨ v = 1 := by
  unfold modal_priority_sieve at h
  split at h
  · exact absurd h (by simp)
  · split at h
    · exact absurd h (by simp)
    · split at h
      · exact Or.inl (Option.some.inj h).symm
      · split at h
        · exact absurd h (by simp)
        · split at h
          · exact absurd h (by simp)
          · split at h
            · exact Or.inr (Option.some.inj h).symm
            · exact Or.inl (Option.some.inj h).symm

lemma place_type_sieve_binary (row : TreatmentRow) (v : ℚ)
    (h : place_type_sieve row = some v) : v = 0 ∨ v = 1 := by
  unfold place_type_sieve at h
  split at h
  · split at h
    · exact Or.inr (Option.some.inj h).symm
    · exact Or.inl (Option.some.inj h).symm
  · exact absurd h (by simp)

lemma row_available_sieve_binary (row : TreatmentRow) (v : ℚ)
    (h : row_available_sieve row = some v) : v = 0 ∨ v = 1 := by
  unfold row_available_sieve at h
  split at h
  · exact absurd h (by simp)
  · split at h
    · exact Or.inr (Option.some.inj h).symm
    · exact Or.inl (Option.some.inj h).symm

lemma land_use_sieve_binary (row : TreatmentRow) :
    land_use_sieve row = 0 ∨ land_use_sieve row = 1 := by
  unfold land_use_sieve
  by_cases hmem : row.landUse.data ∈ (pySplit ',' row.appropriateLandUse.data).map pyStrip
  · exact Or.inr (by simp [hmem])
  · exact Or.inl (by simp [hmem])

lemma sum_five_ones {a b c d e : ℚ}
    (ha : a = 0 ∨ a = 1) (hb : b = 0 ∨ b = 1) (hc : c = 0 ∨ c = 1)
    (hd : d = 0 ∨ d = 1) (he : e = 0 ∨ e = 1) :
    a + b + c + d + e = 5 ↔ (a = 1 ∧ b = 1 ∧ c = 1 ∧ d = 1 ∧ e = 1) := by
  rcases ha with rfl | rfl <;> rcases hb with rfl | rfl <;>
    rcases hc with rfl | rfl <;> rcases hd with rfl | rfl <;>
      rcases he with rfl | rfl <;> norm_num

/-- **C2.** For every row of the intermediate table (one whose five sieve
values exist, with the success-metric cell binary as the tool's schema
prescribes), `Treatment_Applied = 1` holds if and only if every one of the
five sieve functions returned `1`, which holds if and only if
`Sum_Sieve = 5`; and `Treatment_Applied` is always `0` or `1`. -/
theorem treatmentApplied_iff_all_sieves (row : TreatmentRow) (vs : List ℚ)
    (hvs : sieveValues row = some vs)
    (hb : ∀ q, row.successMetric (row.modePriorityApplicable ++ "_Success_Metric") = some q →
      q = 0 ∨ q = 1) :
    (treatmentApplied row = some 1 ↔ ∀ v ∈ vs, v = 1) ∧
    ((∀ v ∈ vs, v = 1) ↔ sumSieve row = some 5) ∧
    (treatmentApplied row = some 1 ∨ treatmentApplied row = some 0) := by
  have hsucc : success_metric_sieve row = 0 ∨ success_metric_sieve row = 1 := by
    unfold success_metric_sieve
    rcases hs : row.successMetric (row.modePriorityApplicable ++ "_Success_Metric") with _ | q
    · right; simp
    · rcases hb q hs with h0 | h1
      · right; simp [h0]
      · left; simp [h1]
  unfold sieveValues at hvs
  rcases hm : modal_priority_sieve row with _ | m <;> rw [hm] at hvs <;>
    [exact absurd hvs (by simp); skip]
  rcases hp : place_type_sieve row with _ | p <;> rw [hp] at hvs <;>
    [exact absurd hvs (by simp); skip]
  rcases hr : row_available_sieve row with _ | r <;> rw [hr] at hvs <;>
    [exact absurd hvs (by simp); skip]
  simp only [Option.some_bind, Option.some.injEq] at hvs
  have hm01 := modal_priority_sieve_binary row m hm
  have hp01 := place_type_sieve_binary row p hp
  have hr01 := row_available_sieve_binary row r hr
  have hl01 := land_use_sieve_binary row
  have hkey := sum_five_ones hm01 hl01 hp01 hr01 hsucc
  have hsum : sumSieve row =
      some (m + land_use_sieve row + p + r + success_metric_sieve row) := by
    unfold sumSieve sieveValues
    rw [hm, hp, hr]
    simp only [Option.some_bind, Option.map_some', List.sum_cons, List.sum_nil,
      Option.some.injEq]
    ring
  have happ : treatmentApplied row =
      some (if (5 : ℚ) = m + land_use_sieve row + p + r + success_metric_sieve row
            then 1 else 0) := by
    unfold treatmentApplied
    rw [hsum, Option.map_some']
  have hallconj : (∀ v ∈ vs, v = 1) ↔
      (m = 1 ∧ land_use_sieve row = 1 ∧ p = 1 ∧ r = 1 ∧ success_metric_sieve row = 1) := by
    rw [← hvs]
    constructor
    · intro hall
      exact ⟨hall m (by simp), hall (land_use_sieve row) (by simp), hall p (by simp),
             hall r (by simp), hall (success_metric_sieve row) (by simp)⟩
    · rintro ⟨e1, e2, e3, e4, e5⟩ v hv
      simp only [List.mem_cons, List.not_mem_nil, or_false] at hv
      rcases hv with rfl | rfl | rfl | rfl | rfl <;> assumption
  refine ⟨?_, ?_, ?_⟩
  · rw [happ, hallconj, ← hkey]
    constructor
    · intro h1
      by_contra hne
      rw [if_neg (fun he => hne he.symm)] at h1
      have := Option.some.inj h1
      norm_num at this
    · intro h5
      rw [if_pos h5.symm]
  · rw [hallconj, ← hkey, hsum]
    constructor
    · intro h5
      rw [h5]
    · intro hs5
      exact Option.some.inj hs5
  · rw [happ]
    by_cases h5 : (5 : ℚ) = m + land_use_sieve row + p + r + success_metric_sieve row
    · left; rw [if_pos h5]
    · right; rw [if_neg h5]

lemma foldl_rank_of_no_match (Q : ℕ → Prop) [DecidablePred Q]
    (l : List ℕ) (init : ℤ) (hno : ∀ i ∈ l, ¬ Q i) :
    l.foldl (fun r j => if Q j then (j : ℤ) else r) init = init := by
  induction l generalizing init with
  | nil => rfl
  | cons a as ih =>
    simp only [List.foldl_cons, if_neg (hno a (by simp))]
    exact ih init (fun i hi => hno i (by simp [hi]))

lemma foldl_rank_of_match (Q : ℕ → Prop) [DecidablePred Q] (l : List ℕ) :
    ∀ init : ℤ, l.Pairwise (· < ·) → (∃ i ∈ l, Q i) →
      ∃ i ∈ l, Q i ∧ l.foldl (fun r j => if Q j then (j : ℤ) else r) init = (i : ℤ) ∧
        ∀ j ∈ l, Q j → j ≤ i := by
  induction l with
  | nil =>
    intro init _ h
    simp at h
  | cons a as ih =>
    intro init hpw hex
    have hpw' : as.Pairwise (· < ·) := (List.pairwise_cons.mp hpw).2
    by_cases hQas : ∃ i ∈ as, Q i
    · obtain ⟨i, hi, hQi, hfold, hmax⟩ := ih (if Q a then (a : ℤ) else init) hpw' hQas
      refine ⟨i, by simp [hi], hQi, by simpa [List.foldl_cons] using hfold, ?_⟩
      intro j hj hQj
      rcases List.mem_cons.mp hj with rfl | hj'
      · exact le_of_lt ((List.pairwise_cons.mp hpw).1 i hi)
      · exact hmax j hj' hQj
    · have hQa : Q a := by
        obtain ⟨i, hi, hQi⟩ := hex
        rcases List.mem_cons.mp hi with rfl | hi'
        · exact hQi
        · exact absurd ⟨i, hi', hQi⟩ hQas
      refine ⟨a, by simp, hQa, ?_, ?_⟩
      · simp only [List.foldl_cons, if_pos hQa]
        exact foldl_rank_of_no_match Q as (a : ℤ) (fun i hi hQi => hQas ⟨i, hi, hQi⟩)
      · intro j hj hQj
        rcases List.mem_cons.mp hj with rfl | hj'
        · exact le_refl _
        · exact absurd ⟨j, hj', hQj⟩ hQas

/-- **C6.** When the rank range cell has the form `lo-hi` (its split pieces
parse as the integers `lo` and `hi`), `modal_priority_sieve` returns `1`
exactly when the applicable mode appears among `Modal_Priority_1` …
`Modal_Priority_7` at an index — the largest matching one when several match —
lying in the inclusive range `[lo, hi]`; and when the applicable mode appears
in none of the seven priority columns the function returns `0` instead of
raising. -/
theorem modal_priority_sieve_spec (row : TreatmentRow) (p0 p1 : List Char)
    (rest : List (List Char)) (lo hi : ℕ)
    (hsplit : pySplit '-' row.appropriatePriorityRankRange.data = p0 :: p1 :: rest)
    (hlo : pyIntOfDigits? p0 = some lo) (hhi : pyIntOfDigits? p1 = some hi) :
    (modal_priority_sieve row = some 1 ↔
      ∃ i, 1 ≤ i ∧ i ≤ 7 ∧ row.modalPriority i = row.modePriorityApplicable ∧
        (∀ j, 1 ≤ j → j ≤ 7 → row.modalPriority j = row.modePriorityApplicable → j ≤ i) ∧
        lo ≤ i ∧ i ≤ hi) ∧
    ((∀ i, 1 ≤ i → i ≤ 7 → row.modalPriority i ≠ row.modePriorityApplicable) →
      modal_priority_sieve row = some 0) := by
  have hsieve : modal_priority_sieve row =
      (if modalRank row < (lo : ℤ) then some 0
       else some (if modalRank row ≤ (hi : ℤ) then 1 else 0)) := by
    unfold modal_priority_sieve
    rw [hsplit]
    simp only [hlo, hhi]
  have hmemL : ∀ i : ℕ, i ∈ (List.range 7).map (· + 1) ↔ (1 ≤ i ∧ i ≤ 7) := by
    intro i
    simp only [List.mem_map, List.mem_range]
    constructor
    · rintro ⟨a, ha, rfl⟩; omega
    · rintro ⟨h1, h7⟩; exact ⟨i - 1, by omega, by omega⟩
  have hLpw : ((List.range 7).map (· + 1)).Pairwise (· < ·) := by decide
  by_cases hex : ∃ i ∈ (List.range 7).map (· + 1),
      row.modalPriority i = row.modePriorityApplicable
  · obtain ⟨istar, hiL, hQ, hfold, hmax⟩ :=
      foldl_rank_of_match (fun i => row.modalPriority i = row.modePriorityApplicable)
        ((List.range 7).map (· + 1)) (-1) hLpw hex
    have hrank : modalRank row = (istar : ℤ) := hfold
    obtain ⟨hi1, hi7⟩ := (hmemL istar).mp hiL
    constructor
    · rw [hsieve, hrank]
      constructor
      · intro h1
        refine ⟨istar, hi1, hi7, hQ, ?_, ?_, ?_⟩
        · intro j hj1 hj7 hQj
          exact hmax j ((hmemL j).mpr ⟨hj1, hj7⟩) hQj
        · by_contra hlt
          rw [if_pos (by exact_mod_cast by omega : (istar : ℤ) < (lo : ℤ))] at h1
          have := Option.some.inj h1
          norm_num at this
        · by_cases hlt : (istar : ℤ) < (lo : ℤ)
          · rw [if_pos hlt] at h1
            have := Option.some.inj h1
            norm_num at this
          · rw [if_neg hlt] at h1
            by_contra hgt
            rw [if_neg (by exact_mod_cast by omega : ¬ (istar : ℤ) ≤ (hi : ℤ))] at h1
            have := Option.some.inj h1
            norm_num at this
      · rintro ⟨i, h1, h7, hQi, hmaxi, hloi, hihi⟩
        have hii : i = istar := by
          have hle1 : i ≤ istar := hmax i ((hmemL i).mpr ⟨h1, h7⟩) hQi
          have hle2 : istar ≤ i := hmaxi istar hi1 hi7 hQ
          omega
        subst hii
        rw [if_neg (by exact_mod_cast by omega : ¬ (i : ℤ) < (lo : ℤ)),
            if_pos (by exact_mod_cast hihi : (i : ℤ) ≤ (hi : ℤ))]
    · intro hno
      exact absurd hQ (hno istar hi1 hi7)
  · have hrank : modalRank row = -1 := by
      unfold modalRank
      exact foldl_rank_of_no_match
        (fun i => row.modalPriority i = row.modePriorityApplicable)
        ((List.range 7).map (· + 1)) (-1) (fun i hi hQ => hex ⟨i, hi, hQ⟩)
    have hzero : modal_priority_sieve row = some 0 := by
      rw [hsieve, hrank, if_pos (by omega)]
    constructor
    · rw [hzero]
      constructor
      · intro h1
        have := Option.some.inj h1
        norm_num at this
      · rintro ⟨i, h1, h7, hQi, -⟩
        exact absurd ⟨i, (hmemL i).mpr ⟨h1, h7⟩, hQi⟩ hex
    · intro _
      exact hzero

/-- A concrete intermediate-table row on which every sieve passes. -/
def exampleTreatmentRow1 : TreatmentRow :=
  { modePriorityApplicable := "Transit"
    modalPriority := fun i => if i = 2 then "Transit" else "None"
    appropriatePriorityRankRange := "1-3"
    appropriateLandUse := "Commercial, Mixed"
    landUse := "Commercial"
    placeTypes := "4"
    placeType := "2"
    totalROWNecessary := "10"
    availableROW := 4
    successMetric := fun _ => some 0 }

/-- **C2, witness.** The theorem evaluated on a concrete row whose five sieve
values are `[1, 1, 1, 1, 1]`. -/
theorem treatmentApplied_iff_all_sieves_witness :
    (treatmentApplied exampleTreatmentRow1 = some 1 ↔
      ∀ v ∈ ([1, 1, 1, 1, 1] : List ℚ), v = 1) ∧
    ((∀ v ∈ ([1, 1, 1, 1, 1] : List ℚ), v = 1) ↔
      sumSieve exampleTreatmentRow1 = some 5) ∧
    (treatmentApplied exampleTreatmentRow1 = some 1 ∨
      treatmentApplied exampleTreatmentRow1 = some 0) := by
  have hm1 : modal_priority_sieve exampleTreatmentRow1 = some 1 := by decide
  have hl1 : land_use_sieve exampleTreatmentRow1 = 1 := by decide
  have hp1 : place_type_sieve exampleTreatmentRow1 = some 1 := by decide
  have hr1 : row_available_sieve exampleTreatmentRow1 = some 1 := by
    have hd : pyIntOfDigits? (digitsOf exampleTreatmentRow1.totalROWNecessary) = some 10 := by
      decide
    unfold row_available_sieve
    rw [hd]
    norm_num [exampleTreatmentRow1]
  have hs1 : success_metric_sieve exampleTreatmentRow1 = 1 := by
    norm_num [success_metric_sieve, exampleTreatmentRow1]
  have hvs : sieveValues exampleTreatmentRow1 = some [1, 1, 1, 1, 1] := by
    unfold sieveValues
    rw [hm1, hp1, hr1]
    simp only [Option.some_bind, hl1, hs1]
  exact treatmentApplied_iff_all_sieves exampleTreatmentRow1 [1, 1, 1, 1, 1]
    hvs (fun q hq => Or.inl (Option.some.inj hq).symm)

/-- A concrete intermediate-table row whose applicable mode matches the
priority columns at indices 2 and 5, with rank range `1-6`. -/
def exampleTreatmentRow2 : TreatmentRow :=
  { modePriorityApplicable := "Transit"
    modalPriority := fun i => if i = 2 ∨ i = 5 then "Transit" else "None"
    appropriatePriorityRankRange := "1-6"
    appropriateLandUse := "Commercial"
    landUse := "Commercial"
    placeTypes := "4"
    placeType := "2"
    totalROWNecessary := "10"
    availableROW := 4
    successMetric := fun _ => some 0 }

/-- **C6, witness.** The theorem evaluated on a concrete row with rank range
`1-6`. -/
theorem modal_priority_sieve_spec_witness :
    (modal_priority_sieve exampleTreatmentRow2 = some 1 ↔
      ∃ i, 1 ≤ i ∧ i ≤ 7 ∧
        exampleTreatmentRow2.modalPriority i = exampleTreatmentRow2.modePriorityApplicable ∧
        (∀ j, 1 ≤ j → j ≤ 7 →
          exampleTreatmentRow2.modalPriority j = exampleTreatmentRow2.modePriorityApplicable →
          j ≤ i) ∧
        1 ≤ i ∧ i ≤ 6) ∧
    ((∀ i, 1 ≤ i → i ≤ 7 →
        exampleTreatmentRow2.modalPriority i ≠ exampleTreatmentRow2.modePriorityApplicable) →
      modal_priority_sieve exampleTreatmentRow2 = some 0) :=
  modal_priority_sieve_spec exampleTreatmentRow2 ['1'] ['6'] [] 1 6
    (by decide) (by decide) (by decide)

/-! ## T1_CurbLR_To_Feature_Class.py: field extraction -/

/-- A JSON-ish value, as held in one cell of the normalized CurbLR frame. -/
inductive JVal where
  | num (q : ℚ)
  | str (s : String)
  | arr (l : List JVal)
  | obj (l : List (String × JVal))

/-- `extract(column, field)` (`T1_CurbLR_To_Feature_Class.py`, lines 85-89):
`column[field]` guarded by a bare try/except returning `None`, so a missing
key, a non-object cell and a missing (`None`) cell all yield `None`. -/
def extract (column : Option JVal) (field : String) : Option JVal :=
  match column with
  | some (.obj kvs) => kvs.lookup field
  | _ => none

/-- `get_item_zero(column)` (lines 79-83): `column[0]` with a bare try/except
returning `None` on any failure. -/
def get_item_zero (column : Option JVal) : Option JVal :=
  match column with
  | some (.arr (x :: _)) => some x
  | _ => none

/-- `xy_to_polyline(xys, sr)` (lines 76-77): builds an `arcpy.Polyline` from a
list of coordinate pairs.  It has no try/except: iterating `None` (or a
non-array), or a coordinate that is not an array starting with two numbers,
raises, modelled as `Except.error`. -/
def xy_to_polyline (xys : Option JVal) : Except Unit (List (ℚ × ℚ)) :=
  match xys with
  | some (.arr l) =>
    l.mapM fun c =>
      match c with
      | .arr (.num x :: .num y :: _) => .ok (x, y)
      | _ => .error ()
  | _ => .error ()

/-- One normalized CurbLR feature row: the cells the extraction step reads.
`payment_isna` states whether the `properties.regulations.payment` meta cell
is `NaN`. -/
structure CurbRecord where
  geometry : Option JVal
  rule : Option JVal
  timesOfDay : Option JVal
  effectiveDates : Option JVal
  location : Option JVal
  payment_isna : Bool

/-- The extracted fields of one output row that C4 talks about. -/
structure CurbOutRow where
  geom : List (ℚ × ℚ)
  activity : Option JVal
  priorityCategory : Option JVal
  maxStay : JVal
  timesOfDay_from : Option JVal
  timesOfDay_to : Option JVal
  effectiveDates_from : Option JVal
  effectiveDates_to : Option JVal
  sharedStreetID : Option JVal
  payment : ℚ

/-- The extraction phase of `convert_curblr_to_feature_class` (lines 91-121),
per record.  The `has*` flags say whether the corresponding optional column
exists in the frame: the column-level `try/except KeyError` blocks fall back
to `None` (or `0` for `payment`) when a whole optional column is missing, and
processing continues.  The mandatory extractions (geometry coordinates,
activity, priorityCategory, maxStay) are wrapped in no such try/except
statement; a `None` coordinates cell reaches `xy_to_polyline`, whose raised
exception aborts the run (`Except.error`).  `maxStay` is filled with the
magic value `-1` when missing (line 98). -/
def extractRecord (hasTimes hasEff hasLoc hasPay : Bool) (r : CurbRecord) :
    Except Unit CurbOutRow :=
  match xy_to_polyline (extract r.geometry "coordinates") with
  | .error e => .error e
  | .ok geom =>
    .ok { geom := geom
          activity := extract r.rule "activity"
          priorityCategory := extract r.rule "priorityCategory"
          maxStay := (extract r.rule "maxStay").getD (.num (-1))
          timesOfDay_from :=
            if hasTimes then extract (get_item_zero r.timesOfDay) "from" else none
          timesOfDay_to :=
            if hasTimes then extract (get_item_zero r.timesOfDay) "to" else none
          effectiveDates_from :=
            if hasEff then extract (get_item_zero r.effectiveDates) "from" else none
          effectiveDates_to :=
            if hasEff then extract (get_item_zero r.effectiveDates) "to" else none
          sharedStreetID := if hasLoc then extract r.location "shstRefId" else none
          payment := if hasPay then (if r.payment_isna then 0 else 1) else 0 }

/-- **C4.** Failure recovery in the CurbLR ingestion is limited to the
try/except fallbacks around the optional fields: when the optional columns
`timesOfDay`, `effectiveDates`, `shstRefId` or `payment` are absent, the
extraction falls back to `None` (`0` for `payment`) and processing continues
(the record still yields an output row); the mandatory extractions carry no
such protection, and a record missing the mandatory geometry-coordinates
field makes the run fail rather than substitute a default. -/
theorem curblr_optional_fallback_mandatory_fails :
    (∀ (hasTimes hasEff hasLoc hasPay : Bool) (r : CurbRecord) (g : List (ℚ × ℚ)),
      xy_to_polyline (extract r.geometry "coordinates") = .ok g →
        ∃ out, extractRecord hasTimes hasEff hasLoc hasPay r = .ok out ∧
          (hasTimes = false → out.timesOfDay_from = none ∧ out.timesOfDay_to = none) ∧
          (hasEff = false → out.effectiveDates_from = none ∧ out.effectiveDates_to = none) ∧
          (hasLoc = false → out.sharedStreetID = none) ∧
          (hasPay = false → out.payment = 0)) ∧
    (∀ (hasTimes hasEff hasLoc hasPay : Bool) (r : CurbRecord),
      extract r.geometry "coordinates" = none →
        extractRecord hasTimes hasEff hasLoc hasPay r = .error ()) := by
  constructor
  · intro hasTimes hasEff hasLoc hasPay r g hok
    have heq : extractRecord hasTimes hasEff hasLoc hasPay r = .ok
        { geom := g
          activity := extract r.rule "activity"
          priorityCategory := extract r.rule "priorityCategory"
          maxStay := (extract r.rule "maxStay").getD (.num (-1))
          timesOfDay_from :=
            if hasTimes then extract (get_item_zero r.timesOfDay) "from" else none
          timesOfDay_to :=
            if hasTimes then extract (get_item_zero r.timesOfDay) "to" else none
          effectiveDates_from :=
            if hasEff then extract (get_item_zero r.effectiveDates) "from" else none
          effectiveDates_to :=
            if hasEff then extract (get_item_zero r.effectiveDates) "to" else none
          sharedStreetID := if hasLoc then extract r.location "shstRefId" else none
          payment := if hasPay then (if r.payment_isna then 0 else 1) else 0 } := by
      unfold extractRecord
      rw [hok]
    refine ⟨_, heq, ?_, ?_, ?_, ?_⟩
    · rintro rfl
      constructor <;> simp
    · rintro rfl
      constructor <;> simp
    · rintro rfl
      simp
    · rintro rfl
      simp
  · intro hasTimes hasEff hasLoc hasPay r hnone
    unfold extractRecord
    rw [hnone]
    rfl

/-- A record whose mandatory cells are all present and whose optional cells
are all absent. -/
def exampleCurbRecordOk : CurbRecord :=
  { geometry := some (.obj [("coordinates", .arr [.arr [.num 1, .num 2], .arr [.num 3, .num 4]])])
    rule := some (.obj [("activity", .str "parking")])
    timesOfDay := none
    effectiveDates := none
    location := none
    payment_isna := true }

/-- A record whose `geometry` object lacks the mandatory `coordinates` key. -/
def exampleCurbRecordNoCoords : CurbRecord :=
  { geometry := some (.obj [])
    rule := some (.obj [("activity", .str "parking")])
    timesOfDay := none
    effectiveDates := none
    location := none
    payment_isna := true }

/-- **C4, witness.** Concrete evaluation: with every optional column absent a
well-formed record still yields a row with the fallback values, and a record
missing its geometry coordinates aborts the run. -/
theorem curblr_optional_fallback_mandatory_fails_witness :
    (∃ out, extractRecord false false false false exampleCurbRecordOk = .ok out ∧
      (false = false → out.timesOfDay_from = none ∧ out.timesOfDay_to = none) ∧
      (false = false → out.effectiveDates_from = none ∧ out.effectiveDates_to = none) ∧
      (false = false → out.sharedStreetID = none) ∧
      (false = false → out.payment = 0)) ∧
    extractRecord true true true true exampleCurbRecordNoCoords = .error () :=
  ⟨curblr_optional_fallback_mandatory_fails.1 false false false false
      exampleCurbRecordOk [(1, 2), (3, 4)] rfl,
   curblr_optional_fallback_mandatory_fails.2 true true true true
      exampleCurbRecordNoCoords rfl⟩

/-! ## `shared_row_data_evaluator` (`curbsidelib.py`, lines 217-424, duplicated
in `T3_ROW_and_Curb_Summary_Statistics.py`, lines 58-286) -/

/-- One attribute row of the shared-row dataframe: column name → numeric
value.  The constructor's sanitizing step fills numeric NA values with 0, so
every cell is a number. -/
def SRRow : Type := String → ℚ

/-- Writing one column of a row (`df[c] = v`, per row). -/
def updateCol (r : SRRow) (c : String) (v : ℚ) : SRRow :=
  fun x => if x = c then v else r x

/-- `df[cs].sum(axis=1)`, per row. -/
def sumCols (r : SRRow) (cs : List String) : ℚ := (cs.map r).sum

/-- Helper for `pyIn`: scan for an occurrence of `sub`. -/
def pyInAux (sub : List Char) : List Char → Bool
  | [] => sub.isEmpty
  | c :: rest => sub.isPrefixOf (c :: rest) || pyInAux sub rest

/-- Python's substring test `sub in s`. -/
def pyIn (sub s : String) : Bool := pyInAux sub.data s.data

/-- `LTL_List`: `[f for f in columns if "Left_Through_Lane" in f]`, sorted
(`curbsidelib.py`, lines 250-253). -/
def ltlListOf (cols : List String) : List String :=
  List.insertionSort (· ≤ ·) (cols.filter (fun f => pyIn "Left_Through_Lane" f))

/-- `RTL_List`: `[f for f in columns if "Right_Through_Lane" in f]`, sorted. -/
def rtlListOf (cols : List String) : List String :=
  List.insertionSort (· ≤ ·) (cols.filter (fun f => pyIn "Right_Through_Lane" f))

/-- `left_sidewalk_slices` (lines 257-258): the named zones present. -/
def leftSidewalkOf (cols : List String) : List String :=
  ["Left_Sidewalk_Frontage_Zone", "Left_Sidewalk_Through_Zone",
   "Left_Sidewalk_Furniture_Zone"].filter (fun i => cols.contains i)

/-- `right_sidewalk_slices` (lines 262-263). -/
def rightSidewalkOf (cols : List String) : List String :=
  ["Right_Sidewalk_Furniture_Zone", "Right_Sidewalk_Through_Zone",
   "Right_Sidewalk_Frontage_Zone"].filter (fun i => cols.contains i)

/-- `left_spec_slices` (line 259). -/
def leftSpecSlices : List String :=
  ["Left_Bike_Lane", "Left_Bike_Buffer", "Left_Parking_Lane", "Left_Transit_Lane"]

/-- `right_spec_slices` (line 261). -/
def rightSpecSlices : List String :=
  ["Right_Transit_Lane", "Right_Parking_Lane", "Right_Bike_Buffer", "Right_Bike_Lane"]

/-- `spec_row_fields` (lines 264-266). -/
def specRowFields (cols : List String) : List String :=
  leftSidewalkOf cols ++ leftSpecSlices ++ ltlListOf cols ++ ["Center_Lane"] ++
    rtlListOf cols ++ rightSpecSlices ++ rightSidewalkOf cols

/-- `row_slices` (line 267): the spec fields present among the columns. -/
def rowSlicesOf (cols : List String) : List String :=
  (specRowFields cols).filter (fun i => cols.contains i)

/-- The column-computing tail of `__init__` (lines 255-274), per row.  Each
dataframe assignment is modelled by an `updateCol` reading the row as updated
so far, in statement order. -/
def initRow (cols : List String) (r : SRRow) : SRRow :=
  let r1 := updateCol r "Right_Thru_Lane_Widths" (sumCols r (rtlListOf cols))
  let r2 := updateCol r1 "Left_Thru_Lane_Widths" (sumCols r1 (ltlListOf cols))
  let r3 := updateCol r2 "Total_ROW_Width" (sumCols r2 (rowSlicesOf cols))
  let r4 := updateCol r3 "Base_Total_ROW_Width" (r3 "Total_ROW_Width")
  let r5 := updateCol r4 "Unused_ROW_Width" 0
  let r6 := updateCol r5 "Left_Sidewalk_Width" (sumCols r5 (leftSidewalkOf cols))
  let r7 := updateCol r6 "Right_Sidewalk_Width" (sumCols r6 (rightSidewalkOf cols))
  updateCol r7 "Curb_To_Curb_Width"
    (r7 "Total_ROW_Width" - (r7 "Left_Sidewalk_Width" + r7 "Right_Sidewalk_Width"))

/-- `update_row` (lines 411-424), per row of the chosen scenario. -/
def updateRowCalc (cols : List String) (r : SRRow) : SRRow :=
  let r1 := updateCol r "Total_ROW_Width" (sumCols r (rowSlicesOf cols))
  let r2 := updateCol r1 "Unused_ROW_Width"
    (r1 "Base_Total_ROW_Width" - r1 "Total_ROW_Width")
  let r3 := updateCol r2 "Left_Sidewalk_Width" (sumCols r2 (leftSidewalkOf cols))
  let r4 := updateCol r3 "Right_Sidewalk_Width" (sumCols r3 (rightSidewalkOf cols))
  updateCol r4 "Curb_To_Curb_Width"
    ((r4 "Total_ROW_Width" + r4 "Unused_ROW_Width") -
      (r4 "Left_Sidewalk_Width" + r4 "Right_Sidewalk_Width"))

/-- `np.where(df[c] > m, m, df[c])` applied to each column of `cs` in order
(a left-to-right loop over the columns). -/
def capCols : List String → ℚ → SRRow → SRRow
  | [], _, r => r
  | c :: cs, m, r => capCols cs m (updateCol r c (if r c > m then m else r c))

/-- `curb_side_lanes` (line 305): through-lane columns whose name contains
`"1"`. -/
def curbSideLanesOf (cols : List String) : List String :=
  (rtlListOf cols ++ ltlListOf cols).filter (fun i => pyIn "1" i)

/-- `other_thru_lanes` (line 306). -/
def otherThruLanesOf (cols : List String) : List String :=
  (rtlListOf cols ++ ltlListOf cols).filter (fun i => !(pyIn "1" i))

/-- `parking_lanes` as computed by `right_size_row` (line 307). -/
def rightSizeParkingOf (cols : List String) : List String :=
  (rowSlicesOf cols).filter (fun i => pyIn "Parking" i && !(pyIn "Meta" i))

/-- `right_size_row` (lines 299-321), per row: cap curbside through lanes
(name containing `"1"`) at 11 ft, other through lanes at 10 ft and parking
lanes at 8 ft — all converted to meters by the fixed factor
`0.3048 = 3048/10000` — then recompute the ROW statistics (`update_row`). -/
def rightSizeRow (cols : List String) (r : SRRow) : SRRow :=
  updateRowCalc cols
    (capCols (rightSizeParkingOf cols) (8 * (3048 / 10000))
      (capCols (otherThruLanesOf cols) (10 * (3048 / 10000))
        (capCols (curbSideLanesOf cols) (11 * (3048 / 10000)) r)))

/-- `remove_parking_lanes` (lines 362-378), per row: zero the first right
and/or left parking-lane column, then recompute. -/
def removeParkingRow (cols : List String) (rightRemoved leftRemoved : Bool)
    (r : SRRow) : SRRow :=
  let parking_lanes :=
    (rowSlicesOf cols).filter (fun i => pyIn "Parking_Lane" i && !(pyIn "Meta" i))
  let right_parking_lane := parking_lanes.filter (fun i => pyIn "Right" i)
  let left_parking_lane := parking_lanes.filter (fun i => pyIn "Left" i)
  let ra := if rightRemoved && !right_parking_lane.isEmpty
    then updateCol r (right_parking_lane.headD "") 0 else r
  let rb := if leftRemoved && !left_parking_lane.isEmpty
    then updateCol ra (left_parking_lane.headD "") 0 else ra
  updateRowCalc cols rb

/-- Python index assignment `row[i] = v` where a negative `i` wraps from the
end (`row[-1]` is the last element). -/
def pySetIdx (l : List ℚ) (i : ℤ) (v : ℚ) : List ℚ :=
  if i < 0 then l.set (l.length - (-i).toNat) v else l.set i.toNat v

/-- `remove_centermost_lane` (lines 338-352): scans the lane values by index;
where a value is `<= 0` (and the guard allows) it zeroes the PREVIOUS index —
for index 0 the Python index `-1` wraps to the last lane.  Reads during the
scan see earlier writes (iteration over the live underlying array).  The
`elif idx == len(row)+1` branch is unreachable and kept for fidelity. -/
def remove_centermost_lane (lock_last_lane : Bool) (row : List ℚ) : List ℚ :=
  let lane_check : ℤ := if lock_last_lane then 0 else -1
  (List.range row.length).foldl
    (fun acc idx =>
      let value := acc.getD idx 0
      if value ≤ 0 ∧ ((idx : ℤ) - 1) ≠ lane_check then pySetIdx acc ((idx : ℤ) - 1) 0
      else if idx = acc.length + 1 then pySetIdx acc (idx : ℤ) 0
      else acc)
    row

/-- Write the values `vs` back into the columns `cs`, positionally
(`df[cs] = df[cs].apply(...)`). -/
def setColsFromList : List String → List ℚ → SRRow → SRRow
  | c :: cs, v :: vs, r => setColsFromList cs vs (updateCol r c v)
  | _, _, r => r

/-- One `df[lanes] = df[lanes].apply(remove_centermost_lane, axis=1)` pass. -/
def roadDietPass (cs : List String) (lock : Bool) (r : SRRow) : SRRow :=
  setColsFromList cs (remove_centermost_lane lock (cs.map r)) r

/-- `int(round(count / 2.0, 0))`: Python 3 rounds halves to even. -/
def rightRemoveCount (count : ℕ) : ℕ :=
  if count % 2 = 0 then count / 2
  else if (count / 2) % 2 = 0 then count / 2 else count / 2 + 1

/-- `int(count / 2.0)`: truncation. -/
def leftRemoveCount (count : ℕ) : ℕ := count / 2

/-- `apply_road_diet` (lines 323-360), per row: zero the tracker columns,
run the right/left removal passes, then recompute. -/
def applyRoadDietRow (cols : List String) (count : ℕ) (lock : Bool)
    (r : SRRow) : SRRow :=
  let r0 := updateCol r "Right_Most" 0
  let r1 := updateCol r0 "Left_Most" 0
  let r2 := (List.range (rightRemoveCount count)).foldl
    (fun r _ => roadDietPass (rtlListOf cols) lock r) r1
  let r3 := (List.range (leftRemoveCount count)).foldl
    (fun r _ => roadDietPass (ltlListOf cols) lock r) r2
  updateRowCalc cols r3

/-- The evaluator's state: the column list, the sanitized main dataframe
rows (after `__init__`), and the scenario dict in insertion order. -/
structure SREvaluator where
  cols : List String
  srRows : List SRRow
  scenarios : List (String × List SRRow)

/-- Construction: sanitize (all cells numeric), compute the ROW statistics
columns on the main dataframe, start with no scenarios. -/
def mkEvaluator (cols : List String) (rows : List SRRow) : SREvaluator :=
  { cols := cols, srRows := rows.map (initRow cols), scenarios := [] }

/-- Dictionary lookup in the scenario dict (first matching key). -/
def lookupScenario (k : String) : List (String × List SRRow) → Option (List SRRow)
  | [] => none
  | kv :: l => if kv.1 = k then some kv.2 else lookupScenario k l

/-- `self.scenario_dfs.setdefault(key, self.sr_df.copy())` — the rows the
editor will work on. -/
def getScenario (st : SREvaluator) (k : String) : List SRRow :=
  (lookupScenario k st.scenarios).getD st.srRows

/-- Store the edited scenario rows under the key (overwriting or appending). -/
def setScenario (st : SREvaluator) (k : String) (rows : List SRRow) : SREvaluator :=
  { st with scenarios :=
      if (lookupScenario k st.scenarios).isSome then
        st.scenarios.map (fun kv => if kv.1 = k then (k, rows) else kv)
      else st.scenarios ++ [(k, rows)] }

/-- `right_size_row(scenario_key)` as a state transformer. -/
def right_size_row (st : SREvaluator) (k : String) : SREvaluator :=
  setScenario st k ((getScenario st k).map (rightSizeRow st.cols))

/-- `remove_parking_lanes(scenario_key, ...)` as a state transformer. -/
def remove_parking_lanes (st : SREvaluator) (k : String)
    (rightRemoved leftRemoved : Bool) : SREvaluator :=
  setScenario st k ((getScenario st k).map (removeParkingRow st.cols rightRemoved leftRemoved))

/-- `apply_road_diet(scenario_key, ...)` as a state transformer. -/
def apply_road_diet (st : SREvaluator) (k : String) (count : ℕ) (lock : Bool) :
    SREvaluator :=
  setScenario st k ((getScenario st k).map (applyRoadDietRow st.cols count lock))

/-- The editor operations of the evaluator. -/
inductive SROp where
  | rightSize (k : String)
  | removeParking (k : String) (rightRemoved leftRemoved : Bool)
  | roadDiet (k : String) (count : ℕ) (lock : Bool)

def applySROp (st : SREvaluator) : SROp → SREvaluator
  | .rightSize k => right_size_row st k
  | .removeParking k a b => remove_parking_lanes st k a b
  | .roadDiet k c l => apply_road_diet st k c l

/-- The per-row part of the C8 invariant. -/
def rowInvariant (r : SRRow) : Prop :=
  r "Total_ROW_Width" + r "Unused_ROW_Width" = r "Base_Total_ROW_Width" ∧
  r "Curb_To_Curb_Width" =
    r "Base_Total_ROW_Width" -
      (r "Left_Sidewalk_Width" + r "Right_Sidewalk_Width")

/-- The C8 invariant of a whole state: in the main dataframe and in every
scenario dataframe, each row's `Base_Total_ROW_Width` is the value fixed at
construction and the two width identities hold. -/
def evalInvariant (st : SREvaluator) (base : List ℚ) : Prop :=
  List.Forall₂ (fun b r => r "Base_Total_ROW_Width" = b ∧ rowInvariant r) base st.srRows ∧
  ∀ kv ∈ st.scenarios,
    List.Forall₂ (fun b r => r "Base_Total_ROW_Width" = b ∧ rowInvariant r) base kv.2

lemma updateCol_other (r : SRRow) (c : String) (v : ℚ) (x : String) (h : x ≠ c) :
    updateCol r c v x = r x := by
  simp [updateCol, h]

lemma capCols_notMem (cs : List String) (m : ℚ) (r : SRRow) (x : String)
    (h : x ∉ cs) : capCols cs m r x = r x := by
  induction cs generalizing r with
  | nil => rfl
  | cons c cs' ih =>
    have hx : x ≠ c := fun he => h (by simp [he])
    unfold capCols
    rw [ih _ (fun he => h (by simp [he])), updateCol_other _ _ _ _ hx]

lemma setColsFromList_notMem (cs : List String) (vs : List ℚ) (r : SRRow)
    (x : String) (h : x ∉ cs) : setColsFromList cs vs r x = r x := by
  induction cs generalizing vs r with
  | nil => cases vs <;> rfl
  | cons c cs' ih =>
    cases vs with
    | nil => rfl
    | cons v vs' =>
      have hx : x ≠ c := fun he => h (by simp [he])
      unfold setColsFromList
      rw [ih _ _ (fun he => h (by simp [he])), updateCol_other _ _ _ _ hx]

lemma foldl_preserve_col {α : Type} (f : SRRow → SRRow) (x : String)
    (hp : ∀ r, f r x = r x) (l : List α) (r : SRRow) :
    (l.foldl (fun r _ => f r) r) x = r x := by
  induction l generalizing r with
  | nil => rfl
  | cons a l' ih => simp only [List.foldl_cons]; rw [ih, hp]

lemma mem_rtl_pyIn {cols : List String} {x : String} (h : x ∈ rtlListOf cols) :
    pyIn "Right_Through_Lane" x = true := by
  unfold rtlListOf at h
  have hmem := (List.perm_insertionSort (· ≤ ·) _).mem_iff.mp h
  exact (List.mem_filter.mp hmem).2

lemma mem_ltl_pyIn {cols : List String} {x : String} (h : x ∈ ltlListOf cols) :
    pyIn "Left_Through_Lane" x = true := by
  unfold ltlListOf at h
  have hmem := (List.perm_insertionSort (· ≤ ·) _).mem_iff.mp h
  exact (List.mem_filter.mp hmem).2

lemma notin_lanes (cols : List String) (x : String)
    (hR : pyIn "Right_Through_Lane" x = false) (hL : pyIn "Left_Through_Lane" x = false) :
    x ∉ rtlListOf cols ++ ltlListOf cols := by
  intro h
  rcases List.mem_append.mp h with h | h
  · rw [mem_rtl_pyIn h] at hR; simp at hR
  · rw [mem_ltl_pyIn h] at hL; simp at hL

lemma updateRowCalc_base (cols : List String) (r : SRRow) :
    updateRowCalc cols r "Base_Total_ROW_Width" = r "Base_Total_ROW_Width" := by
  simp +decide [updateRowCalc, updateCol]

lemma updateRowCalc_inv (cols : List String) (r : SRRow) :
    rowInvariant (updateRowCalc cols r) := by
  constructor <;> simp +decide [updateRowCalc, updateCol, rowInvariant]

lemma rightSizeRow_base (cols : List String) (r : SRRow) :
    rightSizeRow cols r "Base_Total_ROW_Width" = r "Base_Total_ROW_Width" := by
  unfold rightSizeRow
  rw [updateRowCalc_base, capCols_notMem, capCols_notMem, capCols_notMem]
  · exact fun h =>
      notin_lanes cols "Base_Total_ROW_Width" (by decide) (by decide)
        (List.mem_of_mem_filter (by unfold curbSideLanesOf at h; exact h))
  · exact fun h =>
      notin_lanes cols "Base_Total_ROW_Width" (by decide) (by decide)
        (List.mem_of_mem_filter (by unfold otherThruLanesOf at h; exact h))
  · intro h
    unfold rightSizeParkingOf at h
    have hp := (List.mem_filter.mp h).2
    rw [show pyIn "Parking" "Base_Total_ROW_Width" = false from by decide] at hp
    simp at hp

lemma rightSizeRow_inv (cols : List String) (r : SRRow) :
    rowInvariant (rightSizeRow cols r) := by
  unfold rightSizeRow
  exact updateRowCalc_inv cols _

lemma removeParkingRow_base (cols : List String) (a b : Bool) (r : SRRow) :
    removeParkingRow cols a b r "Base_Total_ROW_Width" = r "Base_Total_ROW_Width" := by
  unfold removeParkingRow
  rw [updateRowCalc_base]
  have hnotp : ∀ x ∈ (rowSlicesOf cols).filter
      (fun i => pyIn "Parking_Lane" i && !(pyIn "Meta" i)),
      "Base_Total_ROW_Width" ≠ x := by
    intro x hx he
    have hp := (List.mem_filter.mp hx).2
    rw [← he] at hp
    rw [show pyIn "Parking_Lane" "Base_Total_ROW_Width" = false from by decide] at hp
    simp at hp
  have hhead : ∀ l : List String, l.isEmpty = false → l.headD "" ∈ l := by
    intro l hl
    cases l with
    | nil => simp at hl
    | cons p ps => simp
  have hne : ∀ (cond : Bool) (l : List String) (r' : SRRow),
      (∀ x ∈ l, "Base_Total_ROW_Width" ≠ x) →
      (if cond && !l.isEmpty then updateCol r' (l.headD "") 0 else r')
          "Base_Total_ROW_Width" = r' "Base_Total_ROW_Width" := by
    intro cond l r' hx
    by_cases hc : (cond && !l.isEmpty) = true
    · rw [if_pos hc]
      have hle : l.isEmpty = false := by
        rcases Bool.and_eq_true_iff.mp hc with ⟨-, hb⟩
        simpa using hb
      exact updateCol_other _ _ _ _ (hx _ (hhead l hle))
    · rw [if_neg hc]
  rw [hne, hne]
  · intro x hx
    exact hnotp x (List.mem_of_mem_filter hx)
  · intro x hx
    exact hnotp x (List.mem_of_mem_filter hx)

lemma removeParkingRow_inv (cols : List String) (a b : Bool) (r : SRRow) :
    rowInvariant (removeParkingRow cols a b r) := by
  unfold removeParkingRow
  exact updateRowCalc_inv cols _

lemma roadDietPass_notMem (cs : List String) (lock : Bool) (r : SRRow)
    (x : String) (h : x ∉ cs) : roadDietPass cs lock r x = r x :=
  setColsFromList_notMem cs _ r x h

lemma applyRoadDietRow_base (cols : List String) (count : ℕ) (lock : Bool)
    (r : SRRow) :
    applyRoadDietRow cols count lock r "Base_Total_ROW_Width" =
      r "Base_Total_ROW_Width" := by
  unfold applyRoadDietRow
  rw [updateRowCalc_base]
  rw [foldl_preserve_col (roadDietPass (ltlListOf cols) lock) _
        (fun r => roadDietPass_notMem _ _ _ _ (fun h =>
          notin_lanes cols _ (by decide) (by decide) (List.mem_append.mpr (Or.inr h))))]
  rw [foldl_preserve_col (roadDietPass (rtlListOf cols) lock) _
        (fun r => roadDietPass_notMem _ _ _ _ (fun h =>
          notin_lanes cols _ (by decide) (by decide) (List.mem_append.mpr (Or.inl h))))]
  rw [updateCol_other _ _ _ _ (by decide), updateCol_other _ _ _ _ (by decide)]

lemma applyRoadDietRow_inv (cols : List String) (count : ℕ) (lock : Bool)
    (r : SRRow) : rowInvariant (applyRoadDietRow cols count lock r) := by
  unfold applyRoadDietRow
  exact updateRowCalc_inv cols _

lemma initRow_inv (cols : List String) (r : SRRow) : rowInvariant (initRow cols r) := by
  constructor <;> simp +decide [initRow, updateCol, rowInvariant]

lemma lookupScenario_mem : ∀ {l : List (String × List SRRow)} {k : String}
    {v : List SRRow}, lookupScenario k l = some v → (k, v) ∈ l := by
  intro l
  induction l with
  | nil =>
    intro k v h
    simp [lookupScenario] at h
  | cons kv l ih =>
    intro k v h
    obtain ⟨k', v'⟩ := kv
    unfold lookupScenario at h
    by_cases he : k' = k
    · subst he
      rw [if_pos rfl] at h
      have hv : v' = v := by simpa using h
      subst hv
      exact List.mem_cons_self _ _
    · rw [if_neg he] at h
      exact List.mem_cons_of_mem _ (ih h)

lemma mem_setScenario {st : SREvaluator} {k : String} {rows : List SRRow}
    {kv : String × List SRRow} (h : kv ∈ (setScenario st k rows).scenarios) :
    kv ∈ st.scenarios ∨ kv.2 = rows := by
  unfold setScenario at h
  simp only at h
  split at h
  · obtain ⟨a, ha, hak⟩ := List.mem_map.mp h
    by_cases hae : a.1 = k
    · rw [if_pos hae] at hak
      right
      rw [← hak]
    · rw [if_neg hae] at hak
      left
      rw [← hak]
      exact ha
  · rcases List.mem_append.mp h with h | h
    · left
      exact h
    · right
      simp at h
      rw [h]

lemma forall₂_base_map {base : List ℚ} {rows : List SRRow} (e : SRRow → SRRow)
    (hbase : ∀ r : SRRow, e r "Base_Total_ROW_Width" = r "Base_Total_ROW_Width")
    (hinv : ∀ r : SRRow, rowInvariant (e r))
    (h : List.Forall₂ (fun b r => r "Base_Total_ROW_Width" = b ∧ rowInvariant r) base rows) :
    List.Forall₂ (fun b r => r "Base_Total_ROW_Width" = b ∧ rowInvariant r) base
      (rows.map e) := by
  rw [List.forall₂_map_right_iff]
  exact h.imp (fun _ _ hbr => ⟨by rw [hbase]; exact hbr.1, hinv _⟩)

lemma evalInvariant_applySROp {st : SREvaluator} {base : List ℚ} (op : SROp)
    (h : evalInvariant st base) : evalInvariant (applySROp st op) base := by
  obtain ⟨hmain, hscen⟩ := h
  have hget : ∀ k, List.Forall₂
      (fun b r => r "Base_Total_ROW_Width" = b ∧ rowInvariant r) base (getScenario st k) := by
    intro k
    unfold getScenario
    rcases hl : lookupScenario k st.scenarios with _ | v
    · simpa using hmain
    · simpa using hscen _ (lookupScenario_mem hl)
  cases op with
  | rightSize k =>
    refine ⟨hmain, ?_⟩
    intro kv hkv
    rcases mem_setScenario hkv with hkv | hnew
    · exact hscen _ hkv
    · rw [hnew]
      exact forall₂_base_map _ (rightSizeRow_base st.cols) (rightSizeRow_inv st.cols) (hget k)
  | removeParking k a b =>
    refine ⟨hmain, ?_⟩
    intro kv hkv
    rcases mem_setScenario hkv with hkv | hnew
    · exact hscen _ hkv
    · rw [hnew]
      exact forall₂_base_map _ (removeParkingRow_base st.cols a b)
        (removeParkingRow_inv st.cols a b) (hget k)
  | roadDiet k c l =>
    refine ⟨hmain, ?_⟩
    intro kv hkv
    rcases mem_setScenario hkv with hkv | hnew
    · exact hscen _ hkv
    · rw [hnew]
      exact forall₂_base_map _ (applyRoadDietRow_base st.cols c l)
        (applyRoadDietRow_inv st.cols c l) (hget k)

/-- **C8.** After construction and after any sequence of editor operations
(`right_size_row`, `remove_parking_lanes`, `apply_road_diet`, each of which
ends by calling `update_row`), every row of the main dataframe and of every
scenario dataframe keeps its `Base_Total_ROW_Width` fixed at the value
computed during construction, and satisfies
`Total_ROW_Width + Unused_ROW_Width = Base_Total_ROW_Width` and
`Curb_To_Curb_Width = Base_Total_ROW_Width - (Left_Sidewalk_Width +
Right_Sidewalk_Width)`. -/
theorem shared_row_evaluator_invariant (cols : List String) (rows : List SRRow)
    (ops : List SROp) :
    evalInvariant (ops.foldl applySROp (mkEvaluator cols rows))
      ((mkEvaluator cols rows).srRows.map (fun r => r "Base_Total_ROW_Width")) := by
  have hinit : evalInvariant (mkEvaluator cols rows)
      ((mkEvaluator cols rows).srRows.map (fun r => r "Base_Total_ROW_Width")) := by
    constructor
    · rw [List.forall₂_map_left_iff, List.forall₂_same]
      intro r hr
      refine ⟨rfl, ?_⟩
      obtain ⟨r0, hr0, rfl⟩ := List.mem_map.mp hr
      exact initRow_inv cols r0
    · intro kv hkv
      simp [mkEvaluator] at hkv
  suffices hstep : ∀ st, evalInvariant st
      ((mkEvaluator cols rows).srRows.map (fun r => r "Base_Total_ROW_Width")) →
      evalInvariant (ops.foldl applySROp st)
        ((mkEvaluator cols rows).srRows.map (fun r => r "Base_Total_ROW_Width")) by
    exact hstep _ hinit
  induction ops with
  | nil => intro st h; exact h
  | cons op ops ih =>
    intro st h
    exact ih _ (evalInvariant_applySROp op h)

lemma updateCol_self (r : SRRow) (c : String) (v : ℚ) : updateCol r c v c = v := by
  simp [updateCol]

lemma updateCol_id (r : SRRow) (c : String) : updateCol r c (r c) = r := by
  funext x
  by_cases hx : x = c
  · subst hx
    exact updateCol_self r x (r x)
  · exact updateCol_other r c _ x hx

lemma ite_gt_eq_min (x m : ℚ) : (if x > m then m else x) = min x m := by
  rcases le_or_lt x m with h | h
  · rw [if_neg (not_lt.mpr h), min_eq_left h]
  · rw [if_pos h, min_eq_right h.le]

lemma capCols_apply (cs : List String) (m : ℚ) (r : SRRow) (f : String) :
    capCols cs m r f = if f ∈ cs then min (r f) m else r f := by
  induction cs generalizing r with
  | nil => simp [capCols]
  | cons c cs' ih =>
    unfold capCols
    rw [ih]
    by_cases hfc : f = c
    · subst hfc
      have hself : updateCol r f (if r f > m then m else r f) f = min (r f) m := by
        rw [updateCol_self, ite_gt_eq_min]
      by_cases hf : f ∈ cs'
      · rw [if_pos hf, hself, if_pos (List.mem_cons_self f cs'), min_assoc, min_self]
      · rw [if_neg hf, hself, if_pos (List.mem_cons_self f cs')]
    · have hoth : updateCol r c (if r c > m then m else r c) f = r f :=
        updateCol_other _ _ _ _ hfc
      by_cases hf : f ∈ cs'
      · rw [if_pos hf, hoth, if_pos (List.mem_cons_of_mem c hf)]
      · rw [if_neg hf, hoth, if_neg (by simp [hfc, hf])]

lemma capCols_id (cs : List String) (m : ℚ) (r : SRRow)
    (h : ∀ c ∈ cs, r c ≤ m) : capCols cs m r = r := by
  induction cs generalizing r with
  | nil => rfl
  | cons c cs' ih =>
    unfold capCols
    rw [if_neg (not_lt.mpr (h c (by simp))), updateCol_id]
    exact ih r (fun c' hc' => h c' (by simp [hc']))

lemma ne_of_pyIn {sub f y : String} (hf : pyIn sub f = true)
    (hy : pyIn sub y = false) : f ≠ y := by
  intro he
  rw [he, hy] at hf
  simp at hf

lemma mem_rtl_cols {cols : List String} {x : String} (h : x ∈ rtlListOf cols) :
    x ∈ cols := by
  unfold rtlListOf at h
  exact (List.mem_filter.mp ((List.perm_insertionSort (· ≤ ·) _).mem_iff.mp h)).1

lemma mem_ltl_cols {cols : List String} {x : String} (h : x ∈ ltlListOf cols) :
    x ∈ cols := by
  unfold ltlListOf at h
  exact (List.mem_filter.mp ((List.perm_insertionSort (· ≤ ·) _).mem_iff.mp h)).1

lemma mem_rowSlices_cols {cols : List String} {x : String}
    (h : x ∈ rowSlicesOf cols) : x ∈ cols := by
  have := (List.mem_filter.mp h).2
  simpa using this

lemma lanes_subset_spec {cols : List String} {x : String}
    (h : x ∈ rtlListOf cols ++ ltlListOf cols) : x ∈ specRowFields cols := by
  unfold specRowFields
  simp only [List.mem_append] at h ⊢
  tauto

/-- The fixed slice names of the shared-row spec (everything in
`spec_row_fields` that is not a through-lane column). -/
def srFixedNames : List String :=
  ["Left_Sidewalk_Frontage_Zone", "Left_Sidewalk_Through_Zone",
   "Left_Sidewalk_Furniture_Zone",
   "Left_Bike_Lane", "Left_Bike_Buffer", "Left_Parking_Lane", "Left_Transit_Lane",
   "Center_Lane",
   "Right_Transit_Lane", "Right_Parking_Lane", "Right_Bike_Buffer", "Right_Bike_Lane",
   "Right_Sidewalk_Furniture_Zone", "Right_Sidewalk_Through_Zone",
   "Right_Sidewalk_Frontage_Zone"]

lemma mem_specRowFields {cols : List String} {x : String}
    (hx : x ∈ specRowFields cols) :
    x ∈ srFixedNames ∨ pyIn "Right_Through_Lane" x = true ∨
      pyIn "Left_Through_Lane" x = true := by
  unfold specRowFields at hx
  simp only [List.mem_append] at hx
  rcases hx with ((((((h | h) | h) | h) | h) | h) | h)
  · have h' := List.mem_of_mem_filter h
    fin_cases h' <;> left <;> decide
  · fin_cases h <;> left <;> decide
  · right; right; exact mem_ltl_pyIn h
  · simp only [List.mem_singleton] at h
    subst h
    left
    decide
  · right; left; exact mem_rtl_pyIn h
  · fin_cases h <;> left <;> decide
  · have h' := List.mem_of_mem_filter h
    fin_cases h' <;> left <;> decide

lemma spec_ne_stats {cols : List String} {x : String}
    (hx : x ∈ specRowFields cols) :
    x ≠ "Total_ROW_Width" ∧ x ≠ "Unused_ROW_Width" ∧ x ≠ "Left_Sidewalk_Width" ∧
      x ≠ "Right_Sidewalk_Width" ∧ x ≠ "Curb_To_Curb_Width" := by
  rcases mem_specRowFields hx with h | h | h
  · fin_cases h <;>
      exact ⟨by decide, by decide, by decide, by decide, by decide⟩
  · exact ⟨ne_of_pyIn h (by decide), ne_of_pyIn h (by decide), ne_of_pyIn h (by decide),
           ne_of_pyIn h (by decide), ne_of_pyIn h (by decide)⟩
  · exact ⟨ne_of_pyIn h (by decide), ne_of_pyIn h (by decide), ne_of_pyIn h (by decide),
           ne_of_pyIn h (by decide), ne_of_pyIn h (by decide)⟩

lemma updateRowCalc_other (cols : List String) (r : SRRow) (f : String)
    (h1 : f ≠ "Total_ROW_Width") (h2 : f ≠ "Unused_ROW_Width")
    (h3 : f ≠ "Left_Sidewalk_Width") (h4 : f ≠ "Right_Sidewalk_Width")
    (h5 : f ≠ "Curb_To_Curb_Width") : updateRowCalc cols r f = r f := by
  simp only [updateRowCalc, updateCol]
  simp [h1, h2, h3, h4, h5]

lemma sumCols_congr {r s : SRRow} (cs : List String) (h : ∀ c ∈ cs, r c = s c) :
    sumCols r cs = sumCols s cs := by
  unfold sumCols
  rw [List.map_congr_left h]

lemma lsw_subset_spec {cols : List String} {x : String}
    (h : x ∈ leftSidewalkOf cols) : x ∈ specRowFields cols := by
  unfold specRowFields
  simp only [List.mem_append]
  tauto

lemma rsw_subset_spec {cols : List String} {x : String}
    (h : x ∈ rightSidewalkOf cols) : x ∈ specRowFields cols := by
  unfold specRowFields
  simp only [List.mem_append]
  tauto

lemma updateRowCalc_total (cols : List String) (r : SRRow) :
    updateRowCalc cols r "Total_ROW_Width" = sumCols r (rowSlicesOf cols) := by
  simp +decide [updateRowCalc, updateCol]

lemma updateRowCalc_unused (cols : List String) (r : SRRow) :
    updateRowCalc cols r "Unused_ROW_Width" =
      r "Base_Total_ROW_Width" - sumCols r (rowSlicesOf cols) := by
  simp +decide [updateRowCalc, updateCol]

lemma updateRowCalc_lsw (cols : List String) (r : SRRow) :
    updateRowCalc cols r "Left_Sidewalk_Width" = sumCols r (leftSidewalkOf cols) := by
  simp +decide [updateRowCalc, updateCol]
  exact sumCols_congr _ (fun c hc => by
    obtain ⟨n1, n2, -, -, -⟩ := spec_ne_stats (lsw_subset_spec hc)
    simp [updateCol, n1, n2])

lemma updateRowCalc_rsw (cols : List String) (r : SRRow) :
    updateRowCalc cols r "Right_Sidewalk_Width" = sumCols r (rightSidewalkOf cols) := by
  simp +decide [updateRowCalc, updateCol]
  exact sumCols_congr _ (fun c hc => by
    obtain ⟨n1, n2, n3, -, -⟩ := spec_ne_stats (rsw_subset_spec hc)
    simp [updateCol, n1, n2, n3])

lemma updateRowCalc_c2c (cols : List String) (r : SRRow) :
    updateRowCalc cols r "Curb_To_Curb_Width" =
      r "Base_Total_ROW_Width" -
        (sumCols r (leftSidewalkOf cols) + sumCols r (rightSidewalkOf cols)) := by
  have h := (updateRowCalc_inv cols r).2
  rw [updateRowCalc_base, updateRowCalc_lsw, updateRowCalc_rsw] at h
  exact h

lemma updateRowCalc_untouched_slices (cols : List String) (r : SRRow) :
    ∀ c ∈ rowSlicesOf cols, updateRowCalc cols r c = r c := by
  intro c hc
  obtain ⟨n1, n2, n3, n4, n5⟩ := spec_ne_stats (List.mem_of_mem_filter hc)
  exact updateRowCalc_other cols r c n1 n2 n3 n4 n5

lemma updateRowCalc_idem (cols : List String) (r : SRRow) :
    updateRowCalc cols (updateRowCalc cols r) = updateRowCalc cols r := by
  have hslices : sumCols (updateRowCalc cols r) (rowSlicesOf cols) =
      sumCols r (rowSlicesOf cols) :=
    sumCols_congr _ (updateRowCalc_untouched_slices cols r)
  have hlsw : sumCols (updateRowCalc cols r) (leftSidewalkOf cols) =
      sumCols r (leftSidewalkOf cols) :=
    sumCols_congr _ (fun c hc => by
      obtain ⟨n1, n2, n3, n4, n5⟩ := spec_ne_stats (lsw_subset_spec hc)
      exact updateRowCalc_other cols r c n1 n2 n3 n4 n5)
  have hrsw : sumCols (updateRowCalc cols r) (rightSidewalkOf cols) =
      sumCols r (rightSidewalkOf cols) :=
    sumCols_congr _ (fun c hc => by
      obtain ⟨n1, n2, n3, n4, n5⟩ := spec_ne_stats (rsw_subset_spec hc)
      exact updateRowCalc_other cols r c n1 n2 n3 n4 n5)
  have hbase := updateRowCalc_base cols r
  funext x
  by_cases h1 : x = "Total_ROW_Width"
  · subst h1
    rw [updateRowCalc_total, updateRowCalc_total, hslices]
  by_cases h2 : x = "Unused_ROW_Width"
  · subst h2
    rw [updateRowCalc_unused, updateRowCalc_unused, hslices, hbase]
  by_cases h3 : x = "Left_Sidewalk_Width"
  · subst h3
    rw [updateRowCalc_lsw, updateRowCalc_lsw, hlsw]
  by_cases h4 : x = "Right_Sidewalk_Width"
  · subst h4
    rw [updateRowCalc_rsw, updateRowCalc_rsw, hrsw]
  by_cases h5 : x = "Curb_To_Curb_Width"
  · subst h5
    rw [updateRowCalc_c2c, updateRowCalc_c2c, hlsw, hrsw, hbase]
  · rw [updateRowCalc_other _ _ _ h1 h2 h3 h4 h5]

lemma mem_curbSide_parts {cols : List String} {f : String}
    (hf : f ∈ curbSideLanesOf cols) :
    f ∈ rtlListOf cols ++ ltlListOf cols ∧ pyIn "1" f = true := by
  unfold curbSideLanesOf at hf
  exact ⟨List.mem_of_mem_filter hf, (List.mem_filter.mp hf).2⟩

lemma mem_otherThru_parts {cols : List String} {f : String}
    (hf : f ∈ otherThruLanesOf cols) :
    f ∈ rtlListOf cols ++ ltlListOf cols ∧ pyIn "1" f = false := by
  unfold otherThruLanesOf at hf
  refine ⟨List.mem_of_mem_filter hf, ?_⟩
  have := (List.mem_filter.mp hf).2
  simpa using this

lemma mem_rsp_parts {cols : List String} {f : String}
    (hf : f ∈ rightSizeParkingOf cols) :
    f ∈ rowSlicesOf cols ∧ pyIn "Parking" f = true := by
  unfold rightSizeParkingOf at hf
  refine ⟨List.mem_of_mem_filter hf, ?_⟩
  have := (List.mem_filter.mp hf).2
  exact (Bool.and_eq_true_iff.mp this).1

lemma lane_mem_cols {cols : List String} {f : String}
    (h : f ∈ rtlListOf cols ++ ltlListOf cols) : f ∈ cols := by
  rcases List.mem_append.mp h with h | h
  · exact mem_rtl_cols h
  · exact mem_ltl_cols h

lemma lane_notin_parking {cols : List String} {f : String}
    (hdisj : ∀ x ∈ cols, pyIn "Parking" x = true →
      pyIn "Right_Through_Lane" x = false ∧ pyIn "Left_Through_Lane" x = false)
    (hlane : f ∈ rtlListOf cols ++ ltlListOf cols) :
    f ∉ rightSizeParkingOf cols := by
  intro hP
  obtain ⟨-, hp⟩ := mem_rsp_parts hP
  obtain ⟨hR0, hL0⟩ := hdisj f (lane_mem_cols hlane) hp
  rcases List.mem_append.mp hlane with h | h
  · rw [mem_rtl_pyIn h] at hR0
    simp at hR0
  · rw [mem_ltl_pyIn h] at hL0
    simp at hL0

/-- The three lane-width formulas of `right_size_row` (C9, first half). -/
lemma rightSizeRow_values (cols : List String) (r : SRRow)
    (hdisj : ∀ x ∈ cols, pyIn "Parking" x = true →
      pyIn "Right_Through_Lane" x = false ∧ pyIn "Left_Through_Lane" x = false) :
    (∀ f ∈ curbSideLanesOf cols,
      rightSizeRow cols r f = min (r f) (11 * (3048 / 10000))) ∧
    (∀ f ∈ otherThruLanesOf cols,
      rightSizeRow cols r f = min (r f) (10 * (3048 / 10000))) ∧
    (∀ f ∈ rightSizeParkingOf cols,
      rightSizeRow cols r f = min (r f) (8 * (3048 / 10000))) := by
  refine ⟨?_, ?_, ?_⟩
  · intro f hf
    obtain ⟨hlane, h1⟩ := mem_curbSide_parts hf
    obtain ⟨n1, n2, n3, n4, n5⟩ := spec_ne_stats (lanes_subset_spec hlane)
    unfold rightSizeRow
    rw [updateRowCalc_other _ _ _ n1 n2 n3 n4 n5]
    rw [capCols_notMem _ _ _ _ (lane_notin_parking hdisj hlane)]
    rw [capCols_notMem _ _ _ _ (fun hO => by
      obtain ⟨-, h0⟩ := mem_otherThru_parts hO
      rw [h1] at h0
      simp at h0)]
    rw [capCols_apply, if_pos hf]
  · intro f hf
    obtain ⟨hlane, h0⟩ := mem_otherThru_parts hf
    obtain ⟨n1, n2, n3, n4, n5⟩ := spec_ne_stats (lanes_subset_spec hlane)
    unfold rightSizeRow
    rw [updateRowCalc_other _ _ _ n1 n2 n3 n4 n5]
    rw [capCols_notMem _ _ _ _ (lane_notin_parking hdisj hlane)]
    rw [capCols_apply, if_pos hf]
    rw [capCols_notMem _ _ _ _ (fun hC => by
      obtain ⟨-, h1⟩ := mem_curbSide_parts hC
      rw [h0] at h1
      simp at h1)]
  · intro f hf
    obtain ⟨hslice, hp⟩ := mem_rsp_parts hf
    obtain ⟨n1, n2, n3, n4, n5⟩ :=
      spec_ne_stats (List.mem_of_mem_filter hslice)
    have hfcols : f ∈ cols := mem_rowSlices_cols hslice
    have hnotlane : f ∉ rtlListOf cols ++ ltlListOf cols := by
      intro hlane
      obtain ⟨hR0, hL0⟩ := hdisj f hfcols hp
      rcases List.mem_append.mp hlane with h | h
      · rw [mem_rtl_pyIn h] at hR0
        simp at hR0
      · rw [mem_ltl_pyIn h] at hL0
        simp at hL0
    unfold rightSizeRow
    rw [updateRowCalc_other _ _ _ n1 n2 n3 n4 n5]
    rw [capCols_apply, if_pos hf]
    rw [capCols_notMem _ _ _ _ (fun hO =>
      hnotlane (mem_otherThru_parts hO).1)]
    rw [capCols_notMem _ _ _ _ (fun hC =>
      hnotlane (mem_curbSide_parts hC).1)]

/-- Row-level idempotence of `right_size_row` (C9, second half). -/
lemma rightSizeRow_idem (cols : List String) (r : SRRow)
    (hdisj : ∀ x ∈ cols, pyIn "Parking" x = true →
      pyIn "Right_Through_Lane" x = false ∧ pyIn "Left_Through_Lane" x = false) :
    rightSizeRow cols (rightSizeRow cols r) = rightSizeRow cols r := by
  obtain ⟨hC, hO, hP⟩ := rightSizeRow_values cols r hdisj
  have e1 : capCols (curbSideLanesOf cols) (11 * (3048 / 10000))
      (rightSizeRow cols r) = rightSizeRow cols r :=
    capCols_id _ _ _ (fun c hc => by rw [hC c hc]; exact min_le_right _ _)
  have e2 : capCols (otherThruLanesOf cols) (10 * (3048 / 10000))
      (rightSizeRow cols r) = rightSizeRow cols r :=
    capCols_id _ _ _ (fun c hc => by rw [hO c hc]; exact min_le_right _ _)
  have e3 : capCols (rightSizeParkingOf cols) (8 * (3048 / 10000))
      (rightSizeRow cols r) = rightSizeRow cols r :=
    capCols_id _ _ _ (fun c hc => by rw [hP c hc]; exact min_le_right _ _)
  show updateRowCalc cols
      (capCols (rightSizeParkingOf cols) (8 * (3048 / 10000))
        (capCols (otherThruLanesOf cols) (10 * (3048 / 10000))
          (capCols (curbSideLanesOf cols) (11 * (3048 / 10000))
            (rightSizeRow cols r)))) = rightSizeRow cols r
  rw [e1, e2, e3]
  exact updateRowCalc_idem cols _

lemma lookupScenario_map_overwrite (k : String) (rows : List SRRow)
    (l : List (String × List SRRow))
    (h : (lookupScenario k l).isSome = true) :
    lookupScenario k (l.map (fun kv => if kv.1 = k then (k, rows) else kv)) =
      some rows := by
  induction l with
  | nil => simp [lookupScenario] at h
  | cons kv l ih =>
    obtain ⟨k', v'⟩ := kv
    by_cases he : k' = k
    · subst he
      simp [lookupScenario]
    · simp only [lookupScenario, if_neg he] at h
      simp only [List.map_cons, if_neg he, lookupScenario]
      exact ih h

lemma lookupScenario_append_new (k : String) (rows : List SRRow)
    (l : List (String × List SRRow)) (h : lookupScenario k l = none) :
    lookupScenario k (l ++ [(k, rows)]) = some rows := by
  induction l with
  | nil => simp [lookupScenario]
  | cons kv l ih =>
    obtain ⟨k', v'⟩ := kv
    by_cases he : k' = k
    · simp [lookupScenario, if_pos he] at h
    · simp only [lookupScenario, if_neg he] at h
      simp only [List.cons_append, lookupScenario]
      rw [if_neg he]
      exact ih h

lemma getScenario_setScenario (st : SREvaluator) (k : String) (rows : List SRRow) :
    getScenario (setScenario st k rows) k = rows := by
  unfold getScenario setScenario
  simp only
  split
  · rename_i hs
    rw [lookupScenario_map_overwrite k rows _ hs]
    rfl
  · rename_i hs
    rw [lookupScenario_append_new k rows _
      (Option.not_isSome_iff_eq_none.mp (by simpa using hs))]
    rfl

/-- **C9.** After `right_size_row`, in the chosen scenario every curbside
through lane width (lane name containing `"1"`) equals the minimum of its
previous value and `11 * 0.3048`, every other through lane width the minimum
of its previous value and `10 * 0.3048`, and every parking lane width the
minimum of its previous value and `8 * 0.3048`; consequently applying
`right_size_row` twice to the same scenario yields the same widths as
applying it once.  (The hypothesis states that no through-lane column name
also contains `"Parking"`, which the shared-row naming scheme guarantees.) -/
theorem right_size_row_caps_and_idempotent (st : SREvaluator) (k : String)
    (hdisj : ∀ x ∈ st.cols, pyIn "Parking" x = true →
      pyIn "Right_Through_Lane" x = false ∧ pyIn "Left_Through_Lane" x = false) :
    (∀ r ∈ getScenario st k, ∀ f : String,
      (f ∈ curbSideLanesOf st.cols →
        rightSizeRow st.cols r f = min (r f) (11 * (3048 / 10000))) ∧
      (f ∈ otherThruLanesOf st.cols →
        rightSizeRow st.cols r f = min (r f) (10 * (3048 / 10000))) ∧
      (f ∈ rightSizeParkingOf st.cols →
        rightSizeRow st.cols r f = min (r f) (8 * (3048 / 10000)))) ∧
    getScenario (right_size_row st k) k =
      (getScenario st k).map (rightSizeRow st.cols) ∧
    getScenario (right_size_row (right_size_row st k) k) k =
      getScenario (right_size_row st k) k := by
  refine ⟨?_, ?_, ?_⟩
  · intro r _ f
    obtain ⟨hC, hO, hP⟩ := rightSizeRow_values st.cols r hdisj
    exact ⟨fun h => hC f h, fun h => hO f h, fun h => hP f h⟩
  · exact getScenario_setScenario st k _
  · have h1 : getScenario (right_size_row st k) k =
        (getScenario st k).map (rightSizeRow st.cols) :=
      getScenario_setScenario st k _
    rw [show right_size_row (right_size_row st k) k =
          setScenario (right_size_row st k) k
            ((getScenario (right_size_row st k) k).map
              (rightSizeRow (right_size_row st k).cols)) from rfl]
    rw [getScenario_setScenario, h1]
    rw [show (right_size_row st k).cols = st.cols from rfl, List.map_map]
    exact List.map_congr_left (fun r _ => rightSizeRow_idem st.cols r hdisj)

/-- A small shared-row evaluator on a five-column schema with one row whose
every cell is 5 meters. -/
def exampleSREvaluator : SREvaluator :=
  mkEvaluator
    ["Right_Through_Lane_1", "Right_Through_Lane_2", "Left_Through_Lane_1",
     "Right_Parking_Lane", "Left_Sidewalk_Through_Zone"]
    [fun _ => 5]

/-- **C9, witness.** The theorem evaluated on the concrete evaluator and the
scenario key used by Tool 3. -/
theorem right_size_row_caps_and_idempotent_witness :
    (∀ r ∈ getScenario exampleSREvaluator "Right_Sized", ∀ f : String,
      (f ∈ curbSideLanesOf exampleSREvaluator.cols →
        rightSizeRow exampleSREvaluator.cols r f = min (r f) (11 * (3048 / 10000))) ∧
      (f ∈ otherThruLanesOf exampleSREvaluator.cols →
        rightSizeRow exampleSREvaluator.cols r f = min (r f) (10 * (3048 / 10000))) ∧
      (f ∈ rightSizeParkingOf exampleSREvaluator.cols →
        rightSizeRow exampleSREvaluator.cols r f = min (r f) (8 * (3048 / 10000)))) ∧
    getScenario (right_size_row exampleSREvaluator "Right_Sized") "Right_Sized" =
      (getScenario exampleSREvaluator "Right_Sized").map
        (rightSizeRow exampleSREvaluator.cols) ∧
    getScenario
        (right_size_row (right_size_row exampleSREvaluator "Right_Sized") "Right_Sized")
        "Right_Sized" =
      getScenario (right_size_row exampleSREvaluator "Right_Sized") "Right_Sized" :=
  right_size_row_caps_and_idempotent exampleSREvaluator "Right_Sized" (by decide)

/-! ## T3 curbside-usage summaries
(`conduct_row_and_curbside_statistic_analysis`,
`T3_ROW_and_Curb_Summary_Statistics.py`, lines 388-448) -/

/-- Count of non-overlapping matches of an alternation of literal patterns,
scanning left to right — the semantics of
`Series.str.count("mo|tu|...")` on one cell.  At each position the
alternatives are tried in order; on a match the scan resumes after it
(patterns are nonempty, as the two-letter day codes are, so resuming after a
match of `p` is dropping `p.length - 1` further characters). -/
def regexCountAlt (pats : List (List Char)) : List Char → ℕ
  | [] => 0
  | c :: rest =>
    match pats.find? (fun p => !p.isEmpty && p.isPrefixOf (c :: rest)) with
    | some p => 1 + regexCountAlt pats (rest.drop (p.length - 1))
    | none => regexCountAlt pats rest
termination_by s => s.length
decreasing_by
  · simp only [List.length_cons, List.length_drop]
    omega
  · simp

/-- One curbside regulation row of the dataframe built by
`arcgis_table_to_df`, restricted to the columns the summary step reads.  The
`_dt` stamps are seconds (pandas timestamps are instants; subtraction and
`total_seconds()` are exact on them), and numeric NA values are already the
`fillna(0)` result. -/
structure CurbRegRow where
  corridor : ℚ
  primary : ℚ
  daysOfWeek : String
  from_dt : ℚ
  to_dt : ℚ
  activity : String
  priorityCategory : String
  maxStay : ℚ
  payment : ℚ
  timesOfDay_from : String
  timesOfDay_to : String
  linear_feet : ℚ

/-- `Days_Active` (line 401): the regex count of the analyzed day codes in
the row's `daysOfWeek` string. -/
def daysActive (pats : List (List Char)) (r : CurbRegRow) : ℕ :=
  regexCountAlt pats r.daysOfWeek.data

/-- `Hours_Span` (line 408): `(to_dt - from_dt).total_seconds() / 3600`. -/
def hoursSpan (r : CurbRegRow) : ℚ := (r.to_dt - r.from_dt) / 3600

/-- `Weekly_Hours` (line 409). -/
def weeklyHours (pats : List (List Char)) (r : CurbRegRow) : ℚ :=
  hoursSpan r * (daysActive pats r : ℚ)

/-- `Linear_Feet_Hours` (line 410). -/
def linearFeetHours (pats : List (List Char)) (r : CurbRegRow) : ℚ :=
  weeklyHours pats r * r.linear_feet

/-- `curb_df[curb_df[corridor_id] == corridor]` (line 392). -/
def corridorRows (cid : ℚ) (rows : List CurbRegRow) : List CurbRegRow :=
  rows.filter (fun r => decide (r.corridor = cid))

/-- Lines 395-402: keep only primary features (when the `primary` column is
present) and drop rows with `Days_Active = 0`. -/
def retainedRows (hasPrimary : Bool) (pats : List (List Char))
    (rows : List CurbRegRow) : List CurbRegRow :=
  (if hasPrimary then rows.filter (fun r => decide (r.primary = 1)) else rows).filter
    (fun r => decide (0 < daysActive pats r))

/-- The groupby key of the summary (line 415-417): one regulation group. -/
structure RegKey where
  activity : String
  priorityCategory : String
  maxStay : ℚ
  payment : ℚ
  daysOfWeek : String
  days_active : ℕ
  timesOfDay_from : String
  timesOfDay_to : String
  hours_span : ℚ
  weekly_hours : ℚ
deriving DecidableEq

def keyOf (pats : List (List Char)) (r : CurbRegRow) : RegKey :=
  { activity := r.activity
    priorityCategory := r.priorityCategory
    maxStay := r.maxStay
    payment := r.payment
    daysOfWeek := r.daysOfWeek
    days_active := daysActive pats r
    timesOfDay_from := r.timesOfDay_from
    timesOfDay_to := r.timesOfDay_to
    hours_span := hoursSpan r
    weekly_hours := weeklyHours pats r }

/-- `groupby(...).agg({"Linear_Feet": "sum", "Linear_Feet_Hours": "sum"})`
(lines 413-417): one entry per distinct key, with the two sums over the
key's rows.  (pandas emits the groups sorted by key; the order is irrelevant
here because the next step re-sorts by `Linear_Feet_Hours`.) -/
def groupSummaries (pats : List (List Char)) (rows : List CurbRegRow) :
    List (RegKey × ℚ × ℚ) :=
  ((rows.map (keyOf pats)).dedup).map (fun k =>
    let grp := rows.filter (fun r => decide (keyOf pats r = k))
    (k, (grp.map (fun r => r.linear_feet)).sum,
        (grp.map (fun r => linearFeetHours pats r)).sum))

/-- `sort_values(by='Linear_Feet_Hours', ascending=False)` (line 426). -/
def sortedSummaries (pats : List (List Char)) (rows : List CurbRegRow) :
    List (RegKey × ℚ × ℚ) :=
  List.insertionSort (fun a b => b.2.2 ≤ a.2.2) (groupSummaries pats rows)

/-- `Summary_ID = np.arange(len(corridor_summary)) + 1` (line 427) assigned
in the sorted order. -/
def summariesWithIDs (pats : List (List Char)) (rows : List CurbRegRow) :
    List (ℕ × RegKey × ℚ × ℚ) :=
  (List.range' 1 (sortedSummaries pats rows).length).zip (sortedSummaries pats rows)

/-- **C5.** For each corridor: every retained regulation row has
`Days_Active` equal to the count of analyzed day codes matched in its
`daysOfWeek` string and positive (rows with zero are dropped), with
`Hours_Span = (to_dt - from_dt)` in hours, `Weekly_Hours = Hours_Span *
Days_Active` and `Linear_Feet_Hours = Weekly_Hours * Linear_Feet`; every
summary group carries those per-row formulas in its key, sums `Linear_Feet`
and `Linear_Feet_Hours` over its rows, and the groups are ordered by
descending summed `Linear_Feet_Hours` when `Summary_ID`s 1, 2, … are
assigned. -/
theorem corridor_summary_spec (pats : List (List Char)) (hasPrimary : Bool)
    (cid : ℚ) (rows : List CurbRegRow) :
    (∀ r ∈ retainedRows hasPrimary pats (corridorRows cid rows),
      0 < daysActive pats r ∧
      daysActive pats r = regexCountAlt pats r.daysOfWeek.data ∧
      hoursSpan r = (r.to_dt - r.from_dt) / 3600 ∧
      weeklyHours pats r = hoursSpan r * (daysActive pats r : ℚ) ∧
      linearFeetHours pats r = weeklyHours pats r * r.linear_feet) ∧
    (∀ s ∈ summariesWithIDs pats (retainedRows hasPrimary pats (corridorRows cid rows)),
      (∃ r0 ∈ retainedRows hasPrimary pats (corridorRows cid rows),
        keyOf pats r0 = s.2.1) ∧
      s.2.1.days_active = regexCountAlt pats s.2.1.daysOfWeek.data ∧
      0 < s.2.1.days_active ∧
      s.2.1.weekly_hours = s.2.1.hours_span * (s.2.1.days_active : ℚ) ∧
      s.2.2.1 = (((retainedRows hasPrimary pats (corridorRows cid rows)).filter
          (fun r => decide (keyOf pats r = s.2.1))).map (fun r => r.linear_feet)).sum ∧
      s.2.2.2 = (((retainedRows hasPrimary pats (corridorRows cid rows)).filter
          (fun r => decide (keyOf pats r = s.2.1))).map
            (fun r => linearFeetHours pats r)).sum) ∧
    List.Sorted (fun a b => b.2.2 ≤ a.2.2)
      (sortedSummaries pats (retainedRows hasPrimary pats (corridorRows cid rows))) ∧
    (summariesWithIDs pats (retainedRows hasPrimary pats (corridorRows cid rows))).map
        Prod.fst =
      List.range' 1
        (sortedSummaries pats (retainedRows hasPrimary pats (corridorRows cid rows))).length := by
  set retained := retainedRows hasPrimary pats (corridorRows cid rows) with hret
  refine ⟨?_, ?_, ?_, ?_⟩
  · intro r hr
    have hda : 0 < daysActive pats r := by
      rw [hret] at hr
      unfold retainedRows at hr
      have := (List.mem_filter.mp hr).2
      simpa using this
    exact ⟨hda, rfl, rfl, rfl, rfl⟩
  · intro s hs
    have hsnd : s.2 ∈ sortedSummaries pats retained := by
      unfold summariesWithIDs at hs
      exact (List.of_mem_zip hs).2
    have hmemg : s.2 ∈ groupSummaries pats retained := by
      unfold sortedSummaries at hsnd
      exact (List.perm_insertionSort _ _).mem_iff.mp hsnd
    unfold groupSummaries at hmemg
    obtain ⟨k, hk, hks⟩ := List.mem_map.mp hmemg
    have hkdedup : k ∈ retained.map (keyOf pats) := List.mem_dedup.mp hk
    obtain ⟨r0, hr0, hkr0⟩ := List.mem_map.mp hkdedup
    have hkey : s.2.1 = k := by rw [← hks]
    have hlf : s.2.2.1 = ((retained.filter
        (fun r => decide (keyOf pats r = k))).map (fun r => r.linear_feet)).sum := by
      rw [← hks]
    have hlfh : s.2.2.2 = ((retained.filter
        (fun r => decide (keyOf pats r = k))).map
          (fun r => linearFeetHours pats r)).sum := by
      rw [← hks]
    have hda0 : 0 < daysActive pats r0 := by
      rw [hret] at hr0
      unfold retainedRows at hr0
      have := (List.mem_filter.mp hr0).2
      simpa using this
    refine ⟨⟨r0, hr0, by rw [hkr0, hkey]⟩, ?_, ?_, ?_, ?_, ?_⟩
    · rw [hkey, ← hkr0]
      rfl
    · rw [hkey, ← hkr0]
      exact hda0
    · rw [hkey, ← hkr0]
      rfl
    · rw [hlf, hkey]
    · rw [hlfh, hkey]
  · unfold sortedSummaries
    haveI : IsTotal (RegKey × ℚ × ℚ) (fun a b => b.2.2 ≤ a.2.2) :=
      ⟨fun a b => le_total b.2.2 a.2.2⟩
    haveI : IsTrans (RegKey × ℚ × ℚ) (fun a b => b.2.2 ≤ a.2.2) :=
      ⟨fun a b c hab hbc => le_trans hbc hab⟩
    exact List.sorted_insertionSort _ _
  · unfold summariesWithIDs
    exact List.map_fst_zip _ _ (by simp)

/-- A one-row corridor: active Monday and Saturday of the analyzed set. -/
def exampleCurbRegRow : CurbRegRow :=
  { corridor := 1
    primary := 1
    daysOfWeek := "mo,tu,sa"
    from_dt := 0
    to_dt := 3600
    activity := "parking"
    priorityCategory := "storage"
    maxStay := 120
    payment := 1
    timesOfDay_from := "0:00"
    timesOfDay_to := "1:00"
    linear_feet := 10 }

/-- **C5, witness.** The theorem evaluated with analyzed day codes `mo` and
`sa` on a concrete one-row corridor. -/
theorem corridor_summary_spec_witness :
    (∀ r ∈ retainedRows true [['m', 'o'], ['s', 'a']]
        (corridorRows 1 [exampleCurbRegRow]),
      0 < daysActive [['m', 'o'], ['s', 'a']] r ∧
      daysActive [['m', 'o'], ['s', 'a']] r =
        regexCountAlt [['m', 'o'], ['s', 'a']] r.daysOfWeek.data ∧
      hoursSpan r = (r.to_dt - r.from_dt) / 3600 ∧
      weeklyHours [['m', 'o'], ['s', 'a']] r =
        hoursSpan r * (daysActive [['m', 'o'], ['s', 'a']] r : ℚ) ∧
      linearFeetHours [['m', 'o'], ['s', 'a']] r =
        weeklyHours [['m', 'o'], ['s', 'a']] r * r.linear_feet) ∧
    (∀ s ∈ summariesWithIDs [['m', 'o'], ['s', 'a']]
        (retainedRows true [['m', 'o'], ['s', 'a']] (corridorRows 1 [exampleCurbRegRow])),
      (∃ r0 ∈ retainedRows true [['m', 'o'], ['s', 'a']]
          (corridorRows 1 [exampleCurbRegRow]),
        keyOf [['m', 'o'], ['s', 'a']] r0 = s.2.1) ∧
      s.2.1.days_active = regexCountAlt [['m', 'o'], ['s', 'a']] s.2.1.daysOfWeek.data ∧
      0 < s.2.1.days_active ∧
      s.2.1.weekly_hours = s.2.1.hours_span * (s.2.1.days_active : ℚ) ∧
      s.2.2.1 = (((retainedRows true [['m', 'o'], ['s', 'a']]
          (corridorRows 1 [exampleCurbRegRow])).filter
            (fun r => decide (keyOf [['m', 'o'], ['s', 'a']] r = s.2.1))).map
              (fun r => r.linear_feet)).sum ∧
      s.2.2.2 = (((retainedRows true [['m', 'o'], ['s', 'a']]
          (corridorRows 1 [exampleCurbRegRow])).filter
            (fun r => decide (keyOf [['m', 'o'], ['s', 'a']] r = s.2.1))).map
              (fun r => linearFeetHours [['m', 'o'], ['s', 'a']] r)).sum) ∧
    List.Sorted (fun a b => b.2.2 ≤ a.2.2)
      (sortedSummaries [['m', 'o'], ['s', 'a']]
        (retainedRows true [['m', 'o'], ['s', 'a']] (corridorRows 1 [exampleCurbRegRow]))) ∧
    (summariesWithIDs [['m', 'o'], ['s', 'a']]
        (retainedRows true [['m', 'o'], ['s', 'a']] (corridorRows 1 [exampleCurbRegRow]))).map
        Prod.fst =
      List.range' 1
        (sortedSummaries [['m', 'o'], ['s', 'a']]
          (retainedRows true [['m', 'o'], ['s', 'a']]
            (corridorRows 1 [exampleCurbRegRow]))).length :=
  corridor_summary_spec [['m', 'o'], ['s', 'a']] true 1 [exampleCurbRegRow]

/-! ## T2_Prepare_LR_Correspondence.py: correspondence step
(`prepare_lr_correspondence`, lines 183-238) -/

/-- One record of the located-events table `mem_located` produced by
`LocateFeaturesAlongRoutes` for a curb-feature start/end vertex: the curb
feature's route id, the centerline's route id, the located measure
`m_located`, the signed `Distance` to the route, and the curb feature's
`LENGTH`. -/
structure LocEvent where
  curb_feature_ID : ℤ
  corridor_ID : ℤ
  m_located : ℚ
  dist : ℚ
  length : ℚ
deriving DecidableEq

/-- One aggregated row of the grouped dataframe (lines 186-191): per
`(curb_feature_ID, corridor_ID)` pair, `min`, `max` and `count` of
`m_located`, `min` and `max` of `Distance`, and the first `LENGTH`. -/
structure CandRow where
  curb_feature_ID : ℤ
  corridor_ID : ℤ
  m_located_min : ℚ
  m_located_max : ℚ
  m_located_count : ℕ
  distance_min : ℚ
  distance_max : ℚ
  length_first : ℚ
deriving DecidableEq

/-- The group keys, sorted lexicographically as pandas `groupby` emits them. -/
def eventKeys (events : List LocEvent) : List (ℤ × ℤ) :=
  List.insertionSort (fun a b => a.1 < b.1 ∨ (a.1 = b.1 ∧ a.2 ≤ b.2))
    ((events.map (fun e => (e.curb_feature_ID, e.corridor_ID))).dedup)

/-- `located.groupby([curb_feature_ID, corridor_ID]).agg(...)` (lines
186-191). -/
def groupCands (events : List LocEvent) : List CandRow :=
  (eventKeys events).filterMap (fun k =>
    match events.filter (fun e => decide ((e.curb_feature_ID, e.corridor_ID) = k)) with
    | [] => none
    | e :: es => some
      { curb_feature_ID := k.1
        corridor_ID := k.2
        m_located_min := es.foldl (fun a x => min a x.m_located) e.m_located
        m_located_max := es.foldl (fun a x => max a x.m_located) e.m_located
        m_located_count := es.length + 1
        distance_min := es.foldl (fun a x => min a x.dist) e.dist
        distance_max := es.foldl (fun a x => max a x.dist) e.dist
        length_first := e.length })

/-- `Distance_delta` (line 200): absolute difference of the two distances. -/
def distance_delta (c : CandRow) : ℚ := |c.distance_max - c.distance_min|

/-- `Distance_mean` (line 201): mean of the absolute distances. -/
def distance_mean (c : CandRow) : ℚ := (|c.distance_max| + |c.distance_min|) / 2

/-- `d_over_l` (line 202). -/
def d_over_l (c : CandRow) : ℚ := distance_delta c / c.length_first

/-- The three filters of lines 194, 197 and 205, in order.  `s` is the
precomputed value of `math.sin(math.radians(angle_threshold))` — a float and
hence a rational. -/
def filteredCands (s : ℚ) (events : List LocEvent) : List CandRow :=
  (((groupCands events).filter (fun c => decide (1 < c.m_located_count))).filter
      (fun c => decide (c.m_located_min ≠ c.m_located_max))).filter
    (fun c => decide (d_over_l c < s))

/-- `groupby(curb_feature_ID)['Distance_mean'].idxmin()` (line 206): the
first row attaining the minimal `Distance_mean` in the group. -/
def argminDmean : List CandRow → Option CandRow
  | [] => none
  | c :: cs =>
    some (cs.foldl (fun best x => if distance_mean x < distance_mean best then x else best) c)

def curbIDs (cands : List CandRow) : List ℤ :=
  (cands.map (fun c => c.curb_feature_ID)).dedup

/-- One row of the exported correspondence table (lines 206-219): the chosen
centerline and the `m_from`/`m_to` measures for one curb feature.  Curb
features absent from this table get NULL m-values and are dropped by the
`'m_from IS NOT NULL'` selection (line 229). -/
structure CorrRow where
  curb_feature_ID : ℤ
  corridor_ID : ℤ
  m_from : ℚ
  m_to : ℚ
deriving DecidableEq

def selectedCorrespondence (s : ℚ) (events : List LocEvent) : List CorrRow :=
  (curbIDs (filteredCands s events)).filterMap (fun cid =>
    (argminDmean ((filteredCands s events).filter
        (fun c => decide (c.curb_feature_ID = cid)))).map
      (fun c => ⟨c.curb_feature_ID, c.corridor_ID, c.m_located_min, c.m_located_max⟩))

lemma argminDmean_spec (l : List CandRow) (c : CandRow) (h : argminDmean l = some c) :
    c ∈ l ∧ ∀ x ∈ l, distance_mean c ≤ distance_mean x := by
  match l, h with
  | b :: cs, h =>
    have hfold : ∀ (cs : List CandRow) (b : CandRow),
        (cs.foldl (fun best x =>
          if distance_mean x < distance_mean best then x else best) b) ∈ b :: cs ∧
        ∀ y ∈ b :: cs, distance_mean
          (cs.foldl (fun best x =>
            if distance_mean x < distance_mean best then x else best) b) ≤
          distance_mean y := by
      intro cs
      induction cs with
      | nil =>
        intro b
        exact ⟨by simp, by simp⟩
      | cons x cs ih =>
        intro b
        simp only [List.foldl_cons]
        obtain ⟨hmem, hmin⟩ := ih (if distance_mean x < distance_mean b then x else b)
        constructor
        · rcases List.mem_cons.mp hmem with he | hmem'
          · rw [he]
            by_cases hxb : distance_mean x < distance_mean b
            · rw [if_pos hxb]
              simp
            · rw [if_neg hxb]
              simp
          · simp [hmem']
        · intro y hy
          have hb' : distance_mean (List.foldl (fun best x =>
              if distance_mean x < distance_mean best then x else best)
                (if distance_mean x < distance_mean b then x else b) cs) ≤
              distance_mean (if distance_mean x < distance_mean b then x else b) :=
            hmin _ (by simp)
          rcases List.mem_cons.mp hy with he | hy'
          · subst he
            refine le_trans hb' ?_
            by_cases hxb : distance_mean x < distance_mean y
            · rw [if_pos hxb]
              exact le_of_lt hxb
            · rw [if_neg hxb]
          · rcases List.mem_cons.mp hy' with he | hy''
            · subst he
              refine le_trans hb' ?_
              by_cases hxb : distance_mean y < distance_mean b
              · rw [if_pos hxb]
              · rw [if_neg hxb]
                exact not_lt.mp hxb
            · exact hmin y (by simp [hy''])
    have hc : c = (cs.foldl (fun best x =>
        if distance_mean x < distance_mean best then x else best) b) := by
      have := h
      unfold argminDmean at this
      simpa using this.symm
    obtain ⟨hmem, hmin⟩ := hfold cs b
    rw [hc]
    exact ⟨hmem, hmin⟩

/-- **C1.** A candidate (curb feature, centerline) pair survives the filters
exactly when more than one vertex event was located on that centerline, the
min and max located m-values differ, and `Distance_delta / LENGTH` is
strictly below the sine of the angle threshold; a curb feature appears in the
output exactly when it has a surviving candidate; and every output row picks
a surviving candidate of its curb feature with minimal `Distance_mean`,
carrying that candidate's centerline and min/max m-values. -/
theorem prepare_lr_correspondence_selection (s : ℚ) (events : List LocEvent) :
    (∀ c : CandRow, c ∈ filteredCands s events ↔
      c ∈ groupCands events ∧ 1 < c.m_located_count ∧
        c.m_located_min ≠ c.m_located_max ∧ distance_delta c / c.length_first < s) ∧
    (∀ cid : ℤ,
      (∃ out ∈ selectedCorrespondence s events, out.curb_feature_ID = cid) ↔
        (∃ c ∈ filteredCands s events, c.curb_feature_ID = cid)) ∧
    (∀ out ∈ selectedCorrespondence s events,
      ∃ c ∈ filteredCands s events,
        c.curb_feature_ID = out.curb_feature_ID ∧
        c.corridor_ID = out.corridor_ID ∧
        out.m_from = c.m_located_min ∧ out.m_to = c.m_located_max ∧
        ∀ c2 ∈ filteredCands s events,
          c2.curb_feature_ID = out.curb_feature_ID →
            distance_mean c ≤ distance_mean c2) := by
  have hsel : ∀ out ∈ selectedCorrespondence s events,
      ∃ cid, ∃ c ∈ (filteredCands s events).filter
          (fun c => decide (c.curb_feature_ID = cid)),
        out = ⟨c.curb_feature_ID, c.corridor_ID, c.m_located_min, c.m_located_max⟩ ∧
        ∀ x ∈ (filteredCands s events).filter
            (fun c => decide (c.curb_feature_ID = cid)),
          distance_mean c ≤ distance_mean x := by
    intro out hout
    unfold selectedCorrespondence at hout
    obtain ⟨cid, -, hmap⟩ := List.mem_filterMap.mp hout
    rcases ha : argminDmean ((filteredCands s events).filter
        (fun c => decide (c.curb_feature_ID = cid))) with _ | c
    · rw [ha] at hmap
      simp at hmap
    · rw [ha] at hmap
      simp only [Option.map_some', Option.some.injEq] at hmap
      obtain ⟨hcmem, hcmin⟩ := argminDmean_spec _ c ha
      exact ⟨cid, c, hcmem, hmap.symm, hcmin⟩
  refine ⟨?_, ?_, ?_⟩
  · intro c
    unfold filteredCands
    simp only [List.mem_filter, decide_eq_true_eq]
    unfold d_over_l
    tauto
  · intro cid
    constructor
    · rintro ⟨out, hout, hcid⟩
      obtain ⟨cid', c, hcmem, hout_eq, -⟩ := hsel out hout
      have hc := List.mem_filter.mp hcmem
      refine ⟨c, hc.1, ?_⟩
      rw [← hcid, hout_eq]
    · rintro ⟨c, hc, hcid⟩
      have hcidmem : cid ∈ curbIDs (filteredCands s events) := by
        unfold curbIDs
        rw [List.mem_dedup]
        exact List.mem_map.mpr ⟨c, hc, hcid⟩
      have hfne : (filteredCands s events).filter
          (fun c => decide (c.curb_feature_ID = cid)) ≠ [] := by
        intro hnil
        have : c ∈ (filteredCands s events).filter
            (fun c => decide (c.curb_feature_ID = cid)) :=
          List.mem_filter.mpr ⟨hc, by simp [hcid]⟩
        rw [hnil] at this
        simp at this
      rcases hflt : (filteredCands s events).filter
          (fun c => decide (c.curb_feature_ID = cid)) with _ | ⟨b, cs⟩
      · exact absurd hflt hfne
      · have ha : ∃ cmin, argminDmean ((filteredCands s events).filter
            (fun c => decide (c.curb_feature_ID = cid))) = some cmin := by
          rw [hflt]
          exact ⟨_, rfl⟩
        obtain ⟨cmin, hamin⟩ := ha
        obtain ⟨hminmem, -⟩ := argminDmean_spec _ cmin hamin
        have hmincid : cmin.curb_feature_ID = cid := by
          have := (List.mem_filter.mp hminmem).2
          simpa using this
        refine ⟨⟨cmin.curb_feature_ID, cmin.corridor_ID,
          cmin.m_located_min, cmin.m_located_max⟩, ?_, hmincid⟩
        unfold selectedCorrespondence
        refine List.mem_filterMap.mpr ⟨cid, hcidmem, ?_⟩
        rw [hamin]
        rfl
  · intro out hout
    obtain ⟨cid, c, hcmem, hout_eq, hcmin⟩ := hsel out hout
    have hc := List.mem_filter.mp hcmem
    have hccid : c.curb_feature_ID = cid := by
      have := hc.2
      simpa using this
    refine ⟨c, hc.1, by rw [hout_eq], by rw [hout_eq], by rw [hout_eq],
      by rw [hout_eq], ?_⟩
    intro c2 hc2 hc2cid
    refine hcmin c2 (List.mem_filter.mpr ⟨hc2, ?_⟩)
    rw [hout_eq] at hc2cid
    simp [hc2cid, hccid]
